import Mathlib

/-!
# QL logging facility: shallow embedding and verified properties

Embedding of `include/ql/Trace.hpp`, `include/ql/Log.hpp` and
`include/ql/macros.hpp`.

`include/ql/LogStream.hpp` is not part of the available sources.  The class
`LogStream` is therefore modelled from the specification; every definition that
is modelled this way says so in its documentation.

Conventions.
* C++ `int` trace flags are `Int`; `a & b` is `Int.land a b`.
* `std::size_t` line numbers are `Nat`; C strings are `String`.
* Objects are identified by address.  A `Log` object at address `l` owns the
  eight streams `(l, name)`; externally owned `std::ostream`s have addresses of
  their own.
* The wall clock is an explicit `Clock`: it counts the reads made so far and
  gives the formatted local time of every read.
* Unbounded recursive forwarding is cut by a fuel argument: `none` stands for
  a forwarding that does not return.
-/

set_option linter.dupNamespace false

namespace ql

/-! ## Trace.hpp -/

/-- Wall clock: `reads` counts the calls of `std::time` made so far and
`localtime n` is the text `%Y-%m-%d %H:%M:%S` of the reading number `n`. -/
structure Clock where
  reads : Nat
  localtime : Nat → String

/-- The struct `ql::Trace`. -/
structure Trace where
  flags : Int
  file : String
  line : Nat
  function : String

/-- Enumerator `Trace::FILE`. -/
def Trace.FILE : Int := 1

/-- Enumerator `Trace::LINE`. -/
def Trace.LINE : Int := 2

/-- Enumerator `Trace::FUNCTION`. -/
def Trace.FUNCTION : Int := 4

/-- Enumerator `Trace::DATE`. -/
def Trace.DATE : Int := 8

/-- The function `operator <<(std::ostream & s, const ql::Trace & trace)`.
The stream is the text `s` written so far; the result is the text afterwards
and the clock afterwards.  The local `char sep` is a one-character string. -/
def Trace.put (s : String) (clk : Clock) (trace : Trace) : String × Clock :=
  if trace.flags ≠ 0 then
    let s0 := s ++ " "
    let sep0 := "["
    let (s1, sep1) :=
      if Int.land trace.flags Trace.FILE ≠ 0 then
        (s0 ++ sep0 ++ "file: " ++ trace.file, " ")
      else (s0, sep0)
    let (s2, sep2) :=
      if Int.land trace.flags Trace.LINE ≠ 0 then
        (s1 ++ sep1 ++ "line: " ++ toString trace.line, " ")
      else (s1, sep1)
    let (s3, sep3) :=
      if Int.land trace.flags Trace.FUNCTION ≠ 0 then
        (s2 ++ sep2 ++ "function: " ++ trace.function, " ")
      else (s2, sep2)
    let (s4, clk4) :=
      if Int.land trace.flags Trace.DATE ≠ 0 then
        (s3 ++ sep3 ++ "date: " ++ clk.localtime clk.reads,
          ({ clk with reads := clk.reads + 1 } : Clock))
      else (s3, clk)
    (s4 ++ "]", clk4)
  else
    (s, clk)

/-- Text that `Trace.put` writes to a stream that was empty: the rendering of
a trace. -/
def Trace.render (trace : Trace) (clk : Clock) : String :=
  (Trace.put "" clk trace).1

/-- The fields of a trace as the specification lists them: the flags are
tested in the order FILE, LINE, FUNCTION, DATE, and a field is present when
its bit is set.  `date` is the text of the date field. -/
def Trace.specFields (trace : Trace) (date : String) : List String :=
  (if Int.land trace.flags Trace.FILE ≠ 0 then ["file: " ++ trace.file] else []) ++
  (if Int.land trace.flags Trace.LINE ≠ 0 then ["line: " ++ toString trace.line] else []) ++
  (if Int.land trace.flags Trace.FUNCTION ≠ 0 then ["function: " ++ trace.function] else []) ++
  (if Int.land trace.flags Trace.DATE ≠ 0 then ["date: " ++ date] else [])

/-- The rendering of non-zero flags in the words of the specification: one
space, an opening bracket, the fields joined by single spaces, a closing
bracket. -/
def Trace.specRender (trace : Trace) (date : String) : String :=
  " " ++ "[" ++ String.intercalate " " (trace.specFields date) ++ "]"

/-! ## LogStream (modelled from the specification) -/

/-- The eight members of `Log`, in the order of their declaration:
`m_combinedStream`, `m_debugStream`, `m_noteStream`, `m_warnStream`,
`m_errorStream`, `m_criticalStream`, `m_fatalStream`, `m_infoStream`. -/
inductive StreamName where
  | combined
  | debug
  | note
  | warn
  | error
  | critical
  | fatal
  | info
  deriving DecidableEq, Repr

/-- Sink reference: the address of an externally owned `std::ostream`, or the
stream `name` of the `Log` object at address `log`.  Equality is identity. -/
inductive SinkRef where
  | ostream (addr : Nat)
  | logStream (log : Nat) (name : StreamName)
  deriving DecidableEq, Repr

/-- Modelled from the spec: the class `LogStream` of `LogStream.hpp`, which is
not among the sources.  A multiplexed stream has an ordered collection of
attached sink references (duplicates permitted) and a trace-flag bitmask. -/
structure LogStream where
  m_streams : List SinkRef
  m_traceFlags : Int
  deriving DecidableEq, Repr

/-- Modelled from the spec: the constructor of `LogStream`, which is not among
the sources.  A stream is created empty; the initial trace flags are not
given by the specification and are a parameter. -/
def LogStream.new (defaultTraceFlags : Int) : LogStream :=
  { m_streams := [], m_traceFlags := defaultTraceFlags }

/-- Modelled from the spec: `LogStream::attachStream`, which is not among the
sources.  Appends the sink to the attachment list, without uniqueness
check. -/
def LogStream.attachStream (self : LogStream) (stream : SinkRef) : LogStream :=
  { self with m_streams := self.m_streams ++ [stream] }

/-- Modelled from the spec: `LogStream::detachStream`, which is not among the
sources.  Removes the first attachment list entry whose identity equals the
sink; does nothing when there is none. -/
def LogStream.detachStream (self : LogStream) (stream : SinkRef) : LogStream :=
  { self with m_streams := self.m_streams.erase stream }

/-- Modelled from the spec: `LogStream::setTraceFlags`, which is not among the
sources.  Sets the bitmask of this stream only. -/
def LogStream.setTraceFlags (self : LogStream) (flags : Int) : LogStream :=
  { self with m_traceFlags := flags }

/-- Modelled from the spec: `LogStream::traceFlags`, which is not among the
sources.  Gets the bitmask of this stream. -/
def LogStream.traceFlags (self : LogStream) : Int :=
  self.m_traceFlags

/-- Memory: the streams of the `Log` object at every address, and the bytes
received so far by the external `std::ostream` at every address. -/
structure World where
  streams : Nat → StreamName → LogStream
  ostreams : Nat → String

/-- Apply `f` to the stream `name` of the `Log` object at address `log`. -/
def World.modify (w : World) (log : Nat) (name : StreamName)
    (f : LogStream → LogStream) : World :=
  { w with streams := fun l n =>
      if l = log ∧ n = name then f (w.streams l n) else w.streams l n }

/-- Attach a sink to the stream `name` of the `Log` object at `log`:
the call `log.nameStream().attachStream(sink)`. -/
def World.attach (w : World) (log : Nat) (name : StreamName) (sink : SinkRef) : World :=
  w.modify log name (fun s => s.attachStream sink)

/-- Attach external `std::ostream`s, in the order of the list, to one
stream. -/
def World.attachAll (w : World) (log : Nat) (name : StreamName) (sinks : List Nat) : World :=
  sinks.foldl (fun acc a => acc.attach log name (SinkRef.ostream a)) w

/-- Forward to the sinks of a list, in order, and concatenate what they
deliver; `none` as soon as one forwarding does not return. -/
def writeAll (f : SinkRef → Option (List (Nat × String))) :
    List SinkRef → Option (List (Nat × String))
  | [] => some []
  | t :: ts =>
    match f t with
    | none => none
    | some d =>
      match writeAll f ts with
      | none => none
      | some ds => some (d ++ ds)

/-- Modelled from the spec: the write operation of `LogStream`, which is not
among the sources.  The bytes are appended to every attached sink, in
attachment order; an attached multiplexed stream forwards recursively.  The
result is the sequence of deliveries `(address of the std::ostream, bytes)` in
the order they happen.  A write to a multiplexed stream with no fuel left
does not return. -/
def LogStream.write (w : World) : Nat → SinkRef → String → Option (List (Nat × String))
  | _, SinkRef.ostream a, bytes => some [(a, bytes)]
  | 0, SinkRef.logStream _ _, _ => none
  | fuel + 1, SinkRef.logStream l n, bytes =>
    writeAll (fun t => LogStream.write w fuel t bytes) (w.streams l n).m_streams

/-- Append the delivered bytes to the external streams, in order. -/
def World.deliver (w : World) : List (Nat × String) → World
  | [] => w
  | (a, bytes) :: ds =>
    World.deliver
      { w with ostreams := fun k => if k = a then w.ostreams k ++ bytes else w.ostreams k } ds

/-! ## Log.hpp -/

/-- Address of `std::cout`, an externally owned stream. -/
def std_cout : SinkRef := SinkRef.ostream 0

/-- The function `Log::debugStream` (a reference to the member). -/
def Log.debugStream (self : Nat) : SinkRef := SinkRef.logStream self StreamName.debug

/-- The function `Log::noteStream`. -/
def Log.noteStream (self : Nat) : SinkRef := SinkRef.logStream self StreamName.note

/-- The function `Log::warnStream`. -/
def Log.warnStream (self : Nat) : SinkRef := SinkRef.logStream self StreamName.warn

/-- The function `Log::errorStream`. -/
def Log.errorStream (self : Nat) : SinkRef := SinkRef.logStream self StreamName.error

/-- The function `Log::criticalStream`. -/
def Log.criticalStream (self : Nat) : SinkRef := SinkRef.logStream self StreamName.critical

/-- The function `Log::fatalStream`. -/
def Log.fatalStream (self : Nat) : SinkRef := SinkRef.logStream self StreamName.fatal

/-- The function `Log::infoStream`. -/
def Log.infoStream (self : Nat) : SinkRef := SinkRef.logStream self StreamName.info

/-- The function `Log::combinedStream`. -/
def Log.combinedStream (self : Nat) : SinkRef := SinkRef.logStream self StreamName.combined

/-- The function `Log::attachLog`, on the `Log` object at address `self`. -/
def Log.attachLog (self other : Nat) (w : World) : World :=
  let w1 := w.modify self StreamName.debug (fun s => s.attachStream (Log.debugStream other))
  let w2 := w1.modify self StreamName.note (fun s => s.attachStream (Log.noteStream other))
  let w3 := w2.modify self StreamName.warn (fun s => s.attachStream (Log.warnStream other))
  let w4 := w3.modify self StreamName.error (fun s => s.attachStream (Log.errorStream other))
  let w5 := w4.modify self StreamName.critical
    (fun s => s.attachStream (Log.criticalStream other))
  let w6 := w5.modify self StreamName.fatal (fun s => s.attachStream (Log.fatalStream other))
  w6.modify self StreamName.info (fun s => s.attachStream (Log.infoStream other))

/-- The function `Log::detachLog`, on the `Log` object at address `self`. -/
def Log.detachLog (self other : Nat) (w : World) : World :=
  let w1 := w.modify self StreamName.debug (fun s => s.detachStream (Log.debugStream other))
  let w2 := w1.modify self StreamName.note (fun s => s.detachStream (Log.noteStream other))
  let w3 := w2.modify self StreamName.warn (fun s => s.detachStream (Log.warnStream other))
  let w4 := w3.modify self StreamName.error (fun s => s.detachStream (Log.errorStream other))
  let w5 := w4.modify self StreamName.critical
    (fun s => s.detachStream (Log.criticalStream other))
  let w6 := w5.modify self StreamName.fatal (fun s => s.detachStream (Log.fatalStream other))
  w6.modify self StreamName.info (fun s => s.detachStream (Log.infoStream other))

/-- The function `Log::setTraceFlags`, on the `Log` object at address `self`. -/
def Log.setTraceFlags (self : Nat) (flags : Int) (w : World) : World :=
  let w1 := w.modify self StreamName.debug (fun s => s.setTraceFlags flags)
  let w2 := w1.modify self StreamName.note (fun s => s.setTraceFlags flags)
  let w3 := w2.modify self StreamName.warn (fun s => s.setTraceFlags flags)
  let w4 := w3.modify self StreamName.error (fun s => s.setTraceFlags flags)
  let w5 := w4.modify self StreamName.critical (fun s => s.setTraceFlags flags)
  w5.modify self StreamName.fatal (fun s => s.setTraceFlags flags)

/-- The function `ql_logInitFuncNone`. -/
def ql_logInitFuncNone (_log : Nat) (w : World) : World := w

/-- The function `ql_logInitFuncCout`. -/
def ql_logInitFuncCout (log : Nat) (w : World) : World :=
  w.modify log StreamName.combined (fun s => s.attachStream std_cout)

/-- The constructor `Log::Log`, building a `Log` object at address `self`.
The eight members are default-constructed first (`LogStream.new`), then the
body runs.  `QL_LOG_INIT_FUNC` is the initialization function named by the
preprocessor symbol of that name. -/
def Log.Log (QL_LOG_INIT_FUNC : Nat → World → World) (defaultTraceFlags : Int)
    (self : Nat) (w : World) : World :=
  let w0 : World := { w with streams := fun l n =>
    if l = self then LogStream.new defaultTraceFlags else w.streams l n }
  let w1 := w0.modify self StreamName.info (fun s => s.setTraceFlags 0)
  let w2 := w1.modify self StreamName.combined (fun s => s.setTraceFlags 0)
  let w3 := w2.modify self StreamName.debug (fun s => s.attachStream (Log.combinedStream self))
  let w4 := w3.modify self StreamName.note (fun s => s.attachStream (Log.combinedStream self))
  let w5 := w4.modify self StreamName.warn (fun s => s.attachStream (Log.combinedStream self))
  let w6 := w5.modify self StreamName.error (fun s => s.attachStream (Log.combinedStream self))
  let w7 := w6.modify self StreamName.critical
    (fun s => s.attachStream (Log.combinedStream self))
  let w8 := w7.modify self StreamName.fatal (fun s => s.attachStream (Log.combinedStream self))
  let w9 := w8.modify self StreamName.info (fun s => s.attachStream (Log.combinedStream self))
  QL_LOG_INIT_FUNC self w9

/-! ## macros.hpp -/

/-- Values of `__FILE__`, `__LINE__` and `__FUNCTION__` where a logging
statement is written. -/
structure CallSite where
  file : String
  line : Nat
  function : String

/-- Exit codes of `<cstdlib>`. -/
inductive ExitStatus where
  | EXIT_SUCCESS
  | EXIT_FAILURE
  deriving DecidableEq, Repr

/-- Observable effects of a process, in the order they happen. -/
inductive Effect where
  | write (addr : Nat) (bytes : String)
  | exit (status : ExitStatus)
  | abort
  deriving DecidableEq, Repr

/-- Whether the process still runs, or how it ended. -/
inductive Status where
  | running
  | exited (status : ExitStatus)
  | aborted
  deriving DecidableEq, Repr

/-- The state of a process: memory, clock, the effects so far and the
status. -/
structure Proc where
  world : World
  clock : Clock
  effects : List Effect
  status : Status

/-- The effect of a delivery. -/
def Effect.ofDelivery (d : Nat × String) : Effect := Effect.write d.1 d.2

/-- The text built by the chained insertion shared by the seven logging
statements,
`<< label << EXPR << Trace(flags, __FILE__, __LINE__, __FUNCTION__) << std::endl`,
with the clock after the insertion of the trace.  `EXPR` is the text of the
inserted expression. -/
def logLine (label : String) (flags : Int) (EXPR : String) (site : CallSite)
    (clk : Clock) : String × Clock :=
  let s1 := "" ++ label
  let s2 := s1 ++ EXPR
  let r := Trace.put s2 clk
    { flags := flags, file := site.file, line := site.line, function := site.function }
  (r.1 ++ "\n", r.2)

/-- A text is handed to the stream `name` of the `Log` object at `inst`, which
forwards it: the external streams receive the deliveries, which are also
recorded as effects, in order. -/
def Proc.insertLine (fuel : Nat) (inst : Nat) (name : StreamName) (line : String)
    (p : Proc) : Option Proc :=
  match LogStream.write p.world fuel (SinkRef.logStream inst name) line with
  | none => none
  | some ds =>
    some { p with world := p.world.deliver ds,
                  effects := p.effects ++ ds.map Effect.ofDelivery }

/-- One logging statement on the stream `name` of the `Log` object at `inst`:
the line is built with the trace flags of that stream and handed to the
stream, which forwards it.  A process that has ended does nothing. -/
def Proc.log (fuel : Nat) (inst : Nat) (name : StreamName) (label : String)
    (EXPR : String) (site : CallSite) (p : Proc) : Option Proc :=
  match p.status with
  | Status.running =>
    let r := logLine label (p.world.streams inst name).traceFlags EXPR site p.clock
    Proc.insertLine fuel inst name r.1 { p with clock := r.2 }
  | _ => some p

/-- The function `std::exit`. -/
def std_exit (status : ExitStatus) (p : Proc) : Proc :=
  match p.status with
  | Status.running =>
    { p with effects := p.effects ++ [Effect.exit status], status := Status.exited status }
  | _ => p

/-- The function `std::abort`. -/
def std_abort (p : Proc) : Proc :=
  match p.status with
  | Status.running => { p with effects := p.effects ++ [Effect.abort], status := Status.aborted }
  | _ => p

/-- The statement `QL_DEBUG(EXPR)` (with `QL_NO_DEBUG` not defined); `inst` is
the address of `Log::Instance()`. -/
def QL_DEBUG (fuel inst : Nat) (EXPR : String) (site : CallSite) (p : Proc) : Option Proc :=
  Proc.log fuel inst StreamName.debug "Debug message: " EXPR site p

/-- The statement `QL_NOTE(EXPR)` (with `QL_NO_NOTE` not defined). -/
def QL_NOTE (fuel inst : Nat) (EXPR : String) (site : CallSite) (p : Proc) : Option Proc :=
  Proc.log fuel inst StreamName.note "Note: " EXPR site p

/-- The statement `QL_WARN(EXPR)` (with `QL_NO_WARN` not defined). -/
def QL_WARN (fuel inst : Nat) (EXPR : String) (site : CallSite) (p : Proc) : Option Proc :=
  Proc.log fuel inst StreamName.warn "Warning: " EXPR site p

/-- The statement `QL_ERROR(EXPR)` (with `QL_NO_ERROR` not defined). -/
def QL_ERROR (fuel inst : Nat) (EXPR : String) (site : CallSite) (p : Proc) : Option Proc :=
  Proc.log fuel inst StreamName.error "Error: " EXPR site p

/-- The statement `QL_CRITICAL(EXPR)` (with `QL_NO_CRITICAL` not defined): the
insertion, then, by the comma operator, `std::exit(EXIT_FAILURE)`. -/
def QL_CRITICAL (fuel inst : Nat) (EXPR : String) (site : CallSite) (p : Proc) : Option Proc :=
  (Proc.log fuel inst StreamName.critical "Critical error: " EXPR site p).map
    (std_exit ExitStatus.EXIT_FAILURE)

/-- The statement `QL_FATAL(EXPR)` (with `QL_NO_FATAL` not defined): the
insertion, then, by the comma operator, `std::abort()`. -/
def QL_FATAL (fuel inst : Nat) (EXPR : String) (site : CallSite) (p : Proc) : Option Proc :=
  (Proc.log fuel inst StreamName.fatal "Fatal error: " EXPR site p).map std_abort

/-- The statement `QL_INFO(EXPR)` (with `QL_NO_INFO` not defined).  No label
is inserted before `EXPR`: the label text is empty. -/
def QL_INFO (fuel inst : Nat) (EXPR : String) (site : CallSite) (p : Proc) : Option Proc :=
  Proc.log fuel inst StreamName.info "" EXPR site p

/-- The seven channels that have a logging statement. -/
inductive Channel where
  | debug
  | note
  | warn
  | error
  | critical
  | fatal
  | info
  deriving DecidableEq, Repr

/-- The stream of a channel. -/
def Channel.stream : Channel → StreamName
  | Channel.debug => StreamName.debug
  | Channel.note => StreamName.note
  | Channel.warn => StreamName.warn
  | Channel.error => StreamName.error
  | Channel.critical => StreamName.critical
  | Channel.fatal => StreamName.fatal
  | Channel.info => StreamName.info

/-- The logging statement of a channel. -/
def Channel.emit : Channel → Nat → Nat → String → CallSite → Proc → Option Proc
  | Channel.debug => QL_DEBUG
  | Channel.note => QL_NOTE
  | Channel.warn => QL_WARN
  | Channel.error => QL_ERROR
  | Channel.critical => QL_CRITICAL
  | Channel.fatal => QL_FATAL
  | Channel.info => QL_INFO

/-- The label of a channel as the specification lists it. -/
def Channel.specLabel : Channel → String
  | Channel.debug => "Debug message: "
  | Channel.note => "Note: "
  | Channel.warn => "Warning: "
  | Channel.error => "Error: "
  | Channel.critical => "Critical error: "
  | Channel.fatal => "Fatal error: "
  | Channel.info => ""

/-- What follows the insertion in the statement of a channel: `std::exit`
for `critical`, `std::abort` for `fatal`, nothing for the others. -/
def Channel.specFinish : Channel → Proc → Proc
  | Channel.critical => std_exit ExitStatus.EXIT_FAILURE
  | Channel.fatal => std_abort
  | _ => id

/-- A registry with external streams: a registry constructed at `inst` with
`ql_logInitFuncNone`, then the external streams `T` attached to `combined`,
then the external streams `S` attached to the stream of channel `c`. -/
def World.freshWith (w0 : World) (d : Int) (inst : Nat) (T : List Nat) (c : Channel)
    (S : List Nat) : World :=
  ((Log.Log ql_logInitFuncNone d inst w0).attachAll inst StreamName.combined T).attachAll
    inst c.stream S

/-- An external stream `a` can be reached from a sink along attachments. -/
inductive Reaches (w : World) : SinkRef → Nat → Prop where
  | ostream (a : Nat) : Reaches w (SinkRef.ostream a) a
  | logStream (l : Nat) (n : StreamName) (t : SinkRef) (a : Nat) :
      t ∈ (w.streams l n).m_streams → Reaches w t a → Reaches w (SinkRef.logStream l n) a

/-- The part `P` of the attachment graph has no cycle: it is closed under
attachment, and `rank` decreases along every attachment in it. -/
def Acyclic (w : World) (P : SinkRef → Prop) (rank : SinkRef → Nat) : Prop :=
  ∀ l n t, P (SinkRef.logStream l n) → t ∈ (w.streams l n).m_streams →
    P t ∧ rank t < rank (SinkRef.logStream l n)

/-- One of the two provided initialization functions: `ql_logInitFuncCout`
when `cout` is true, `ql_logInitFuncNone` otherwise. -/
def providedInitFunc (cout : Bool) : Nat → World → World :=
  if cout then ql_logInitFuncCout else ql_logInitFuncNone

/-- Attach external streams to streams of registries, in the order of the
list; an entry is (address of the registry, stream, address of the external
stream). -/
def World.attachLeaves (w : World) (atts : List (Nat × StreamName × Nat)) : World :=
  atts.foldl (fun acc x => acc.attach x.1 x.2.1 (SinkRef.ostream x.2.2)) w

/-- Two registries, one attached to the other: registries constructed at `A`
and at `B`, each with one of the provided initialization functions, external
streams attached (`atts1`), then `A.attachLog(B)`, then further external
streams attached (`atts2`). -/
def World.pairWith (w0 : World) (dA dB : Int) (coutA coutB : Bool) (A B : Nat)
    (atts1 atts2 : List (Nat × StreamName × Nat)) : World :=
  (Log.attachLog A B
    ((Log.Log (providedInitFunc coutB) dB B
      (Log.Log (providedInitFunc coutA) dA A w0)).attachLeaves atts1)).attachLeaves atts2

/-- A rank for memories that hold freshly constructed registries and nothing
else: external streams 0, `combined` streams 1, the other streams 2. -/
def freshRank : SinkRef → Nat
  | SinkRef.ostream _ => 0
  | SinkRef.logStream _ n => if n = StreamName.combined then 1 else 2

/-- The fully rendered line of the specification for a statement on
channel `c`: label, message, rendering of the trace, line terminator. -/
def Channel.specLine (c : Channel) (flags : Int) (M : String) (site : CallSite)
    (clk : Clock) : String :=
  c.specLabel ++ M ++
    Trace.render { flags := flags, file := site.file, line := site.line,
                   function := site.function } clk ++ "\n"

/-- A running process that starts in memory `w`, with a clock not yet read
and no effect so far. -/
def Proc.start (w : World) (date : String) : Proc :=
  { world := w, clock := { reads := 0, localtime := fun _ => date }, effects := [],
    status := Status.running }

/-- A clock that has not been read and shows the same text at every
reading. -/
def Clock.fixed (date : String) : Clock :=
  { reads := 0, localtime := fun _ => date }

/-- A memory with no attachment, all trace flags zero and nothing written. -/
def World.empty : World :=
  { streams := fun _ _ => { m_streams := [], m_traceFlags := 0 }, ostreams := fun _ => "" }

/-- Two registries with a shared external stream: registries constructed at
`A` and at `B` with `ql_logInitFuncNone`, the external stream `S` attached to
`combined` of `A` and to `combined` of `B`, then `A.attachLog(B)`. -/
def World.sharedWith (w0 : World) (dA dB : Int) (A B S : Nat) : World :=
  Log.attachLog A B
    (((Log.Log ql_logInitFuncNone dB B (Log.Log ql_logInitFuncNone dA A w0)).attach A
      StreamName.combined (SinkRef.ostream S)).attach B StreamName.combined (SinkRef.ostream S))

/-- Two registries that share `std::cout`: registries constructed at `A` and
at `B` with the default `ql_logInitFuncCout`, then `A.attachLog(B)`. -/
def World.sharedCout (w0 : World) (dA dB : Int) (A B : Nat) : World :=
  Log.attachLog A B
    (Log.Log ql_logInitFuncCout dB B (Log.Log ql_logInitFuncCout dA A w0))

/-- Number of set bits of an `int` of 32 bits: the positions 0 to 31 whose bit
is set. -/
def setBits (x : Int) : Nat :=
  ((List.range 32).filter (fun i => x.testBit i)).length

/-! ## Trace: properties -/

theorem nat_ldiff_or (a b n : Nat) :
    Nat.ldiff (a ||| b) n = Nat.ldiff a n ||| Nat.ldiff b n := by
  apply Nat.eq_of_testBit_eq
  intro i
  simp only [Nat.testBit_ldiff, Nat.testBit_or]
  cases a.testBit i <;> cases b.testBit i <;> cases n.testBit i <;> rfl

theorem int_land_or (f : Int) (a b : Nat) (ha : Int.land f a = 0) (hb : Int.land f b = 0) :
    Int.land f ((a ||| b : Nat) : Int) = 0 := by
  cases f with
  | ofNat n =>
    have ha1 : n &&& a = 0 := Int.ofNat.inj ha
    have hb1 : n &&& b = 0 := Int.ofNat.inj hb
    show ((n &&& (a ||| b) : Nat) : Int) = 0
    rw [Nat.and_or_distrib_left, ha1, hb1]
    rfl
  | negSucc n =>
    have ha1 : Nat.ldiff a n = 0 := Int.ofNat.inj ha
    have hb1 : Nat.ldiff b n = 0 := Int.ofNat.inj hb
    show ((Nat.ldiff (a ||| b) n : Nat) : Int) = 0
    rw [nat_ldiff_or, ha1, hb1]
    rfl

theorem int_land_fifteen (f : Int) (h : Int.land f 15 ≠ 0) :
    Int.land f Trace.FILE ≠ 0 ∨ Int.land f Trace.LINE ≠ 0 ∨
      Int.land f Trace.FUNCTION ≠ 0 ∨ Int.land f Trace.DATE ≠ 0 := by
  by_contra hc
  push_neg at hc
  obtain ⟨h1, h2, h4, h8⟩ := hc
  apply h
  have h12 := int_land_or f 1 2 h1 h2
  have h124 := int_land_or f (1 ||| 2) 4 h12 h4
  exact int_land_or f (1 ||| 2 ||| 4) 8 h124 h8

theorem Trace.put_fst (s : String) (clk : Clock) (trace : Trace) :
    (Trace.put s clk trace).1 = s ++ trace.render clk := by
  by_cases h0 : trace.flags = 0 <;>
  by_cases h1 : Int.land trace.flags Trace.FILE = 0 <;>
  by_cases h2 : Int.land trace.flags Trace.LINE = 0 <;>
  by_cases h3 : Int.land trace.flags Trace.FUNCTION = 0 <;>
  by_cases h4 : Int.land trace.flags Trace.DATE = 0 <;>
  simp [Trace.put, Trace.render, h0, h1, h2, h3, h4, String.ext_iff, String.data_append]

theorem Trace.put_snd (s : String) (clk : Clock) (trace : Trace) :
    (Trace.put s clk trace).2 = (Trace.put "" clk trace).2 := by
  by_cases h0 : trace.flags = 0 <;>
  by_cases h1 : Int.land trace.flags Trace.FILE = 0 <;>
  by_cases h2 : Int.land trace.flags Trace.LINE = 0 <;>
  by_cases h3 : Int.land trace.flags Trace.FUNCTION = 0 <;>
  by_cases h4 : Int.land trace.flags Trace.DATE = 0 <;>
  simp [Trace.put, h0, h1, h2, h3, h4]

/-- C9. With flags 0 the insertion of a trace leaves the stream and the clock
as they were, for every file, line and function: nothing is written and the
clock is not read; the rendering is the empty string. -/
theorem Trace.render_flags_zero (s : String) (clk : Clock) (file : String) (line : Nat)
    (function : String) :
    Trace.put s clk { flags := 0, file := file, line := line, function := function } = (s, clk) ∧
    Trace.render { flags := 0, file := file, line := line, function := function } clk = "" := by
  simp [Trace.put, Trace.render]

/-- C8, as stated, fails: flags 16 are different from 0 and the rendering is
a space and a closing bracket, with no opening bracket. -/
theorem Trace.render_flags_sixteen :
    (16 : Int) ≠ 0 ∧
    Trace.render { flags := 16, file := "a.c", line := 10, function := "f" } (Clock.fixed "") = " ]" ∧
    Trace.render { flags := 16, file := "a.c", line := 10, function := "f" } (Clock.fixed "") ≠
      Trace.specRender { flags := 16, file := "a.c", line := 10, function := "f" } "" ∧
    ¬ ∃ body : String,
      Trace.render { flags := 16, file := "a.c", line := 10, function := "f" } (Clock.fixed "") =
        " [" ++ body := by
  refine ⟨by decide, by decide, by decide, ?_⟩
  rintro ⟨body, hb⟩
  have h : (" ]" : String) = " [" ++ body := by
    rw [← hb]
    decide
  rw [String.ext_iff, String.data_append] at h
  have h2 := congrArg (fun l => l.get? 1) h
  revert h2
  simp

/-- C8, amended.  When at least one of the bits FILE, LINE, FUNCTION, DATE is
set (flags & 15 is not 0), the rendering of a trace is one space, an opening
bracket, the fields whose bit is set in the order FILE, LINE, FUNCTION, DATE
joined by single spaces, and a closing bracket; the date text is the reading
of the clock at that moment.  The rendering starts with a space and an
opening bracket and ends with a closing bracket. -/
theorem Trace.render_eq_specRender (trace : Trace) (clk : Clock)
    (h15 : Int.land trace.flags 15 ≠ 0) :
    trace.render clk = trace.specRender (clk.localtime clk.reads) ∧
    ∃ body : String, trace.render clk = " [" ++ body ++ "]" := by
  have h := int_land_fifteen trace.flags h15
  have h0 : trace.flags ≠ 0 := by
    intro h0
    rw [h0] at h
    revert h
    decide
  have key : trace.render clk = trace.specRender (clk.localtime clk.reads) := by
    by_cases h1 : Int.land trace.flags Trace.FILE = 0 <;>
    by_cases h2 : Int.land trace.flags Trace.LINE = 0 <;>
    by_cases h3 : Int.land trace.flags Trace.FUNCTION = 0 <;>
    by_cases h4 : Int.land trace.flags Trace.DATE = 0 <;>
    simp [Trace.render, Trace.put, Trace.specRender, Trace.specFields, h0, h1, h2, h3, h4,
      String.intercalate, String.intercalate.go, String.ext_iff, String.data_append] at h ⊢
  refine ⟨key, String.intercalate " " (trace.specFields (clk.localtime clk.reads)), ?_⟩
  rw [key]
  simp [Trace.specRender, String.ext_iff, String.data_append]

/-- Witness of C8: flags FILE|LINE, file a.c, line 10, function f. -/
theorem Trace.render_eq_specRender_witness :
    (Trace.render { flags := 3, file := "a.c", line := 10, function := "f" } (Clock.fixed "") =
      Trace.specRender { flags := 3, file := "a.c", line := 10, function := "f" } "") ∧
    Trace.specRender { flags := 3, file := "a.c", line := 10, function := "f" } "" =
      " [file: a.c line: 10]" :=
  ⟨(Trace.render_eq_specRender { flags := 3, file := "a.c", line := 10, function := "f" }
      (Clock.fixed "") (by decide)).1, by decide⟩

/-! ## Log: attachment lists and trace flags -/

theorem World.modify_streams (w : World) (log : Nat) (name : StreamName)
    (f : LogStream → LogStream) (l : Nat) (n : StreamName) :
    (w.modify log name f).streams l n =
      if l = log ∧ n = name then f (w.streams l n) else w.streams l n := rfl

theorem World.modify_ostreams (w : World) (log : Nat) (name : StreamName)
    (f : LogStream → LogStream) : (w.modify log name f).ostreams = w.ostreams := rfl

theorem Log.attachLog_streams (self other : Nat) (w : World) (l : Nat) (n : StreamName) :
    (Log.attachLog self other w).streams l n =
      if l = self ∧ n ≠ StreamName.combined then
        (w.streams l n).attachStream (SinkRef.logStream other n)
      else w.streams l n := by
  by_cases hl : l = self <;> cases n <;>
    simp [Log.attachLog, World.modify_streams, hl, Log.debugStream, Log.noteStream,
      Log.warnStream, Log.errorStream, Log.criticalStream, Log.fatalStream, Log.infoStream]

theorem Log.detachLog_streams (self other : Nat) (w : World) (l : Nat) (n : StreamName) :
    (Log.detachLog self other w).streams l n =
      if l = self ∧ n ≠ StreamName.combined then
        (w.streams l n).detachStream (SinkRef.logStream other n)
      else w.streams l n := by
  by_cases hl : l = self <;> cases n <;>
    simp [Log.detachLog, World.modify_streams, hl, Log.debugStream, Log.noteStream,
      Log.warnStream, Log.errorStream, Log.criticalStream, Log.fatalStream, Log.infoStream]

theorem Log.setTraceFlags_streams (self : Nat) (flags : Int) (w : World) (l : Nat)
    (n : StreamName) :
    (Log.setTraceFlags self flags w).streams l n =
      if l = self ∧ n ≠ StreamName.combined ∧ n ≠ StreamName.info then
        (w.streams l n).setTraceFlags flags
      else w.streams l n := by
  by_cases hl : l = self <;> cases n <;>
    simp [Log.setTraceFlags, World.modify_streams, hl]

theorem Log.Log_none_streams (d : Int) (self : Nat) (w : World) (l : Nat) (n : StreamName) :
    (Log.Log ql_logInitFuncNone d self w).streams l n =
      if l = self then
        if n = StreamName.combined then { m_streams := [], m_traceFlags := 0 }
        else if n = StreamName.info then
          { m_streams := [Log.combinedStream self], m_traceFlags := 0 }
        else { m_streams := [Log.combinedStream self], m_traceFlags := d }
      else w.streams l n := by
  by_cases hl : l = self <;> cases n <;>
    simp [Log.Log, ql_logInitFuncNone, World.modify_streams, hl, LogStream.new,
      LogStream.attachStream, LogStream.setTraceFlags]

theorem Log.Log_cout_streams (d : Int) (self : Nat) (w : World) (l : Nat) (n : StreamName) :
    (Log.Log ql_logInitFuncCout d self w).streams l n =
      if l = self then
        if n = StreamName.combined then { m_streams := [std_cout], m_traceFlags := 0 }
        else if n = StreamName.info then
          { m_streams := [Log.combinedStream self], m_traceFlags := 0 }
        else { m_streams := [Log.combinedStream self], m_traceFlags := d }
      else w.streams l n := by
  by_cases hl : l = self <;> cases n <;>
    simp [Log.Log, ql_logInitFuncCout, World.modify_streams, hl, LogStream.new,
      LogStream.attachStream, LogStream.setTraceFlags]

/-- C2. Immediately after construction with `ql_logInitFuncNone` or with
`ql_logInitFuncCout`, the attachment list of each of the seven streams debug,
note, warn, error, critical, fatal, info consists of the own `combined`
stream of the registry, which it therefore holds exactly once, and the trace
flags of `info` and of `combined` are 0. -/
theorem Log.Log_invariant (d : Int) (self : Nat) (w : World) (c : Channel) :
    ((Log.Log ql_logInitFuncNone d self w).streams self c.stream).m_streams =
        [Log.combinedStream self] ∧
    ((Log.Log ql_logInitFuncNone d self w).streams self c.stream).m_streams.count
        (Log.combinedStream self) = 1 ∧
    ((Log.Log ql_logInitFuncNone d self w).streams self StreamName.info).traceFlags = 0 ∧
    ((Log.Log ql_logInitFuncNone d self w).streams self StreamName.combined).traceFlags = 0 ∧
    ((Log.Log ql_logInitFuncCout d self w).streams self c.stream).m_streams =
        [Log.combinedStream self] ∧
    ((Log.Log ql_logInitFuncCout d self w).streams self c.stream).m_streams.count
        (Log.combinedStream self) = 1 ∧
    ((Log.Log ql_logInitFuncCout d self w).streams self StreamName.info).traceFlags = 0 ∧
    ((Log.Log ql_logInitFuncCout d self w).streams self StreamName.combined).traceFlags = 0 := by
  cases c <;>
    simp [Log.Log_none_streams, Log.Log_cout_streams, Channel.stream, LogStream.traceFlags]

/-- C5. `Log::setTraceFlags(b)` sets the trace flags of exactly the six
streams debug, note, warn, error, critical, fatal of the registry to `b`; the
trace flags of `info` and `combined`, the trace flags of the streams of every
other registry, the attachment list of every stream and the external streams
are unchanged. -/
theorem Log.setTraceFlags_frame (self : Nat) (b : Int) (w : World) :
    (∀ l n, ((Log.setTraceFlags self b w).streams l n).traceFlags =
      if l = self ∧ n ≠ StreamName.combined ∧ n ≠ StreamName.info then b
      else (w.streams l n).traceFlags) ∧
    ((Log.setTraceFlags self b w).streams self StreamName.info).traceFlags =
      (w.streams self StreamName.info).traceFlags ∧
    ((Log.setTraceFlags self b w).streams self StreamName.combined).traceFlags =
      (w.streams self StreamName.combined).traceFlags ∧
    (∀ l n, ((Log.setTraceFlags self b w).streams l n).m_streams = (w.streams l n).m_streams) ∧
    (Log.setTraceFlags self b w).ostreams = w.ostreams := by
  refine ⟨?_, ?_, ?_, ?_, rfl⟩
  · intro l n
    rw [Log.setTraceFlags_streams]
    split <;> simp [LogStream.setTraceFlags, LogStream.traceFlags]
  · simp [Log.setTraceFlags_streams]
  · simp [Log.setTraceFlags_streams]
  · intro l n
    rw [Log.setTraceFlags_streams]
    split <;> simp [LogStream.setTraceFlags]

theorem erase_append_singleton (L : List SinkRef) (x : SinkRef) :
    (L ++ [x]).erase x = if x ∈ L then L.erase x ++ [x] else L := by
  by_cases h : x ∈ L
  · rw [if_pos h, List.erase_append_left _ h]
  · rw [if_neg h, List.erase_append_right _ h]
    simp

theorem erase_append_singleton_perm (L : List SinkRef) (x : SinkRef) :
    ((L ++ [x]).erase x).Perm L := by
  have h : (L ++ [x]).Perm (x :: L) := by
    simp
  simpa using h.erase x

theorem Log.attachLog_iterate_streams (self other : Nat) (w : World) (k : Nat) (l : Nat)
    (n : StreamName) :
    ((Log.attachLog self other)^[k] w).streams l n =
      if l = self ∧ n ≠ StreamName.combined then
        { m_streams := (w.streams l n).m_streams ++ List.replicate k (SinkRef.logStream other n),
          m_traceFlags := (w.streams l n).m_traceFlags }
      else w.streams l n := by
  induction k with
  | zero => simp
  | succ k ih =>
    rw [Function.iterate_succ_apply', Log.attachLog_streams, ih]
    split
    · simp [LogStream.attachStream, List.replicate_succ']
    · rfl

/-- C3, as stated, fails when `self` and `other` are the same registry:
the attachment list of the debug stream of `other` is changed by the call. -/
theorem Log.attachLog_same_registry :
    ((Log.Log ql_logInitFuncCout 0 0 World.empty).streams 0 StreamName.debug).m_streams =
      [Log.combinedStream 0] ∧
    ((Log.attachLog 0 0 (Log.Log ql_logInitFuncCout 0 0 World.empty)).streams 0
        StreamName.debug).m_streams = [Log.combinedStream 0, Log.debugStream 0] ∧
    ((Log.attachLog 0 0 (Log.Log ql_logInitFuncCout 0 0 World.empty)).streams 0
        StreamName.debug).m_streams ≠
      ((Log.Log ql_logInitFuncCout 0 0 World.empty).streams 0 StreamName.debug).m_streams := by
  refine ⟨by decide, by decide, by decide⟩

/-- C3, amended.  `self.attachLog(other)` appends, for each of the seven names
debug, note, warn, error, critical, fatal, info, the stream of `other` of that
name to the end of the attachment list of the stream of `self` of the same
name, with no uniqueness check: `k` calls add `k` entries.  No `combined`
stream is attached anywhere.  The attachment list of `combined` of `self` and
of `combined` of `other`, every attachment list of every registry other than
`self` (so every list of `other` when `other` is not `self`), the trace flags
of every stream and the external streams are unchanged. -/
theorem Log.attachLog_spec (self other : Nat) (w : World) :
    (∀ c : Channel, ((Log.attachLog self other w).streams self c.stream).m_streams =
      (w.streams self c.stream).m_streams ++ [SinkRef.logStream other c.stream]) ∧
    (∀ (k : Nat) (c : Channel),
      (((Log.attachLog self other)^[k] w).streams self c.stream).m_streams =
        (w.streams self c.stream).m_streams ++
          List.replicate k (SinkRef.logStream other c.stream)) ∧
    (∀ l n r, ((Log.attachLog self other w).streams l n).m_streams.count
        (SinkRef.logStream r StreamName.combined) =
      (w.streams l n).m_streams.count (SinkRef.logStream r StreamName.combined)) ∧
    ((Log.attachLog self other w).streams self StreamName.combined).m_streams =
      (w.streams self StreamName.combined).m_streams ∧
    ((Log.attachLog self other w).streams other StreamName.combined).m_streams =
      (w.streams other StreamName.combined).m_streams ∧
    (∀ l, l ≠ self → ∀ n, ((Log.attachLog self other w).streams l n).m_streams =
      (w.streams l n).m_streams) ∧
    (∀ l n, ((Log.attachLog self other w).streams l n).traceFlags =
      (w.streams l n).traceFlags) ∧
    (Log.attachLog self other w).ostreams = w.ostreams := by
  refine ⟨?_, ?_, ?_, ?_, ?_, ?_, ?_, rfl⟩
  · intro c
    cases c <;> simp [Log.attachLog_streams, Channel.stream, LogStream.attachStream]
  · intro k c
    cases c <;> simp [Log.attachLog_iterate_streams, Channel.stream]
  · intro l n r
    rw [Log.attachLog_streams]
    split
    · rename_i h
      have hn : ¬ (StreamName.combined = n) := fun e => h.2 e.symm
      simp [LogStream.attachStream, List.count_append, hn]
    · rfl
  · simp [Log.attachLog_streams]
  · simp [Log.attachLog_streams]
  · intro l hl n
    simp [Log.attachLog_streams, hl]
  · intro l n
    rw [Log.attachLog_streams]
    split <;> simp [LogStream.attachStream, LogStream.traceFlags]

/-- Witness of C3: registries at addresses 0 and 1 in the empty memory. -/
theorem Log.attachLog_spec_witness :
    (1 : Nat) ≠ 0 ∧
    ∀ n, ((Log.attachLog 0 1 World.empty).streams 1 n).m_streams =
      (World.empty.streams 1 n).m_streams :=
  ⟨by decide, (Log.attachLog_spec 0 1 World.empty).2.2.2.2.2.1 1 (by decide)⟩

/-- C4, as stated, fails: registries 0 and 1 are constructed, the streams of
1 are attached to the streams of 0 and an external stream is attached to the
debug stream of 0 after that.  An `attachLog` followed by a `detachLog` then
moves the stream of 1 behind the external stream. -/
theorem Log.attach_detach_reorders :
    (((Log.attachLog 0 1 (Log.Log ql_logInitFuncNone 0 0
        (Log.Log ql_logInitFuncNone 0 1 World.empty))).attach 0 StreamName.debug
          (SinkRef.ostream 7)).streams 0 StreamName.debug).m_streams =
      [Log.combinedStream 0, Log.debugStream 1, SinkRef.ostream 7] ∧
    ((Log.detachLog 0 1 (Log.attachLog 0 1
        ((Log.attachLog 0 1 (Log.Log ql_logInitFuncNone 0 0
          (Log.Log ql_logInitFuncNone 0 1 World.empty))).attach 0 StreamName.debug
            (SinkRef.ostream 7)))).streams 0 StreamName.debug).m_streams =
      [Log.combinedStream 0, SinkRef.ostream 7, Log.debugStream 1] ∧
    ((Log.detachLog 0 1 (Log.attachLog 0 1
        ((Log.attachLog 0 1 (Log.Log ql_logInitFuncNone 0 0
          (Log.Log ql_logInitFuncNone 0 1 World.empty))).attach 0 StreamName.debug
            (SinkRef.ostream 7)))).streams 0 StreamName.debug).m_streams ≠
      (((Log.attachLog 0 1 (Log.Log ql_logInitFuncNone 0 0
        (Log.Log ql_logInitFuncNone 0 1 World.empty))).attach 0 StreamName.debug
          (SinkRef.ostream 7)).streams 0 StreamName.debug).m_streams := by
  refine ⟨by decide, by decide, by decide⟩

/-- C4, amended.  `self.attachLog(other)` followed by `self.detachLog(other)`
leaves each attachment list a permutation of what it was before the
`attachLog` call, and leaves trace flags and external streams unchanged.  A
list is restored as an ordered list when it is `combined`, or belongs to
another registry than `self`, or did not hold the stream of `other` of the
same name before.  When a list of `self` did hold that stream, its first
occurrence is removed and one occurrence stands at the end. -/
theorem Log.detachLog_attachLog (self other : Nat) (w : World) :
    (∀ l n, ((Log.detachLog self other (Log.attachLog self other w)).streams l n).m_streams.Perm
      (w.streams l n).m_streams) ∧
    (∀ l n, (l ≠ self ∨ n = StreamName.combined ∨
        SinkRef.logStream other n ∉ (w.streams l n).m_streams) →
      ((Log.detachLog self other (Log.attachLog self other w)).streams l n).m_streams =
        (w.streams l n).m_streams) ∧
    (∀ c : Channel, SinkRef.logStream other c.stream ∈ (w.streams self c.stream).m_streams →
      ((Log.detachLog self other (Log.attachLog self other w)).streams self c.stream).m_streams =
        (w.streams self c.stream).m_streams.erase (SinkRef.logStream other c.stream) ++
          [SinkRef.logStream other c.stream]) ∧
    (∀ l n, ((Log.detachLog self other (Log.attachLog self other w)).streams l n).traceFlags =
      (w.streams l n).traceFlags) ∧
    (Log.detachLog self other (Log.attachLog self other w)).ostreams = w.ostreams := by
  have key : ∀ l n,
      ((Log.detachLog self other (Log.attachLog self other w)).streams l n) =
        if l = self ∧ n ≠ StreamName.combined then
          { m_streams := ((w.streams l n).m_streams ++ [SinkRef.logStream other n]).erase
              (SinkRef.logStream other n),
            m_traceFlags := (w.streams l n).m_traceFlags }
        else w.streams l n := by
    intro l n
    rw [Log.detachLog_streams, Log.attachLog_streams]
    split <;> simp [LogStream.attachStream, LogStream.detachStream]
  refine ⟨?_, ?_, ?_, ?_, rfl⟩
  · intro l n
    rw [key]
    split
    · exact erase_append_singleton_perm _ _
    · exact List.Perm.refl _
  · intro l n h
    rw [key]
    split
    · rename_i hc
      rcases h with h | h | h
      · exact absurd hc.1 h
      · exact absurd h hc.2
      · simp [erase_append_singleton, h]
    · rfl
  · intro c hmem
    rw [key]
    have hc : c.stream ≠ StreamName.combined := by cases c <;> simp [Channel.stream]
    simp [hc, erase_append_singleton, hmem]
  · intro l n
    rw [key]
    split <;> simp [LogStream.traceFlags]

/-- Witness of C4: registries 0 and 1 freshly constructed in the empty
memory; the stream of 1 is not attached to the debug stream of 0. -/
theorem Log.detachLog_attachLog_witness :
    SinkRef.logStream 1 StreamName.debug ∉
      ((Log.Log ql_logInitFuncNone 0 0 (Log.Log ql_logInitFuncNone 0 1 World.empty)).streams 0
        StreamName.debug).m_streams ∧
    ((Log.detachLog 0 1 (Log.attachLog 0 1 (Log.Log ql_logInitFuncNone 0 0
      (Log.Log ql_logInitFuncNone 0 1 World.empty)))).streams 0 StreamName.debug).m_streams =
      ((Log.Log ql_logInitFuncNone 0 0 (Log.Log ql_logInitFuncNone 0 1 World.empty)).streams 0
        StreamName.debug).m_streams :=
  ⟨by decide,
   (Log.detachLog_attachLog 0 1 (Log.Log ql_logInitFuncNone 0 0
      (Log.Log ql_logInitFuncNone 0 1 World.empty))).2.1 0 StreamName.debug
      (Or.inr (Or.inr (by decide)))⟩

/-! ## Logging statements: the line -/

theorem logLine_fst (label : String) (flags : Int) (EXPR : String) (site : CallSite)
    (clk : Clock) :
    (logLine label flags EXPR site clk).1 =
      label ++ EXPR ++
        Trace.render { flags := flags, file := site.file, line := site.line,
                       function := site.function } clk ++ "\n" := by
  simp [logLine, Trace.put_fst]

theorem logLine_snd (label : String) (flags : Int) (EXPR : String) (site : CallSite)
    (clk : Clock) :
    (logLine label flags EXPR site clk).2 =
      (Trace.put "" clk { flags := flags, file := site.file, line := site.line,
                          function := site.function }).2 := by
  simp only [logLine]
  exact Trace.put_snd _ _ _

theorem Channel.emit_eq (c : Channel) (fuel inst : Nat) (M : String) (site : CallSite)
    (p : Proc) :
    c.emit fuel inst M site p =
      (Proc.log fuel inst c.stream c.specLabel M site p).map c.specFinish := by
  cases c <;>
    simp [Channel.emit, Channel.stream, Channel.specLabel, Channel.specFinish, QL_DEBUG,
      QL_NOTE, QL_WARN, QL_ERROR, QL_CRITICAL, QL_FATAL, QL_INFO]

theorem Channel.emit_running (c : Channel) (fuel inst : Nat) (M : String) (site : CallSite)
    (p : Proc) (hrun : p.status = Status.running) :
    c.emit fuel inst M site p =
      (Proc.insertLine fuel inst c.stream
        (c.specLabel ++ M ++
          Trace.render { flags := (p.world.streams inst c.stream).traceFlags, file := site.file,
                         line := site.line, function := site.function } p.clock ++ "\n")
        { p with clock :=
            (Trace.put "" p.clock
              { flags := (p.world.streams inst c.stream).traceFlags, file := site.file,
                line := site.line, function := site.function }).2 }).map c.specFinish := by
  rw [Channel.emit_eq]
  simp only [Proc.log, hrun]
  rw [logLine_fst, logLine_snd]

/-- C6. For each of the seven logging statements, every message and every
call site, in a running process, the text handed to the stream of the
statement is label, message, rendering of the trace and line terminator, where
the label is the one the specification lists for the statement and the trace
carries the current trace flags of that same stream.  With flags LINE on
`error` the line of an error statement is the label, the message, the line
number in brackets and the terminator; with flags 0 on `info` the line of an
info statement is the message and the terminator. -/
theorem Channel.emit_line (c : Channel) (fuel inst : Nat) (M : String) (site : CallSite)
    (p : Proc) (hrun : p.status = Status.running) :
    c.emit fuel inst M site p =
      (Proc.insertLine fuel inst c.stream
        (c.specLabel ++ M ++
          Trace.render { flags := (p.world.streams inst c.stream).traceFlags, file := site.file,
                         line := site.line, function := site.function } p.clock ++ "\n")
        { p with clock :=
            (Trace.put "" p.clock
              { flags := (p.world.streams inst c.stream).traceFlags, file := site.file,
                line := site.line, function := site.function }).2 }).map c.specFinish ∧
    ((p.world.streams inst StreamName.error).traceFlags = Trace.LINE →
      QL_ERROR fuel inst M site p =
        Proc.insertLine fuel inst StreamName.error
          ("Error: " ++ M ++ " [line: " ++ toString site.line ++ "]" ++ "\n") p) ∧
    ((p.world.streams inst StreamName.info).traceFlags = 0 →
      QL_INFO fuel inst M site p =
        Proc.insertLine fuel inst StreamName.info (M ++ "\n") p) := by
  refine ⟨Channel.emit_running c fuel inst M site p hrun, ?_, ?_⟩
  · intro hf
    simp only [QL_ERROR, Proc.log, hrun, hf]
    have h1 : logLine "Error: " Trace.LINE M site p.clock =
        ("Error: " ++ M ++ " [line: " ++ toString site.line ++ "]" ++ "\n", p.clock) := by
      have e1 : Int.land 2 1 = 0 := by decide
      have e2 : Int.land 2 2 = 2 := by decide
      have e4 : Int.land 2 4 = 0 := by decide
      have e8 : Int.land 2 8 = 0 := by decide
      simp [logLine, Trace.put, Trace.LINE, Trace.FILE, Trace.FUNCTION, Trace.DATE,
        String.ext_iff, String.data_append, e1, e2, e4, e8]
    rw [h1]
    cases p
    simp only at hrun
    subst hrun
    rfl
  · intro hf
    simp only [QL_INFO, Proc.log, hrun, hf]
    have h1 : logLine "" 0 M site p.clock = (M ++ "\n", p.clock) := by
      simp [logLine, Trace.put]
    rw [h1]
    cases p
    simp only at hrun
    subst hrun
    rfl

/-- Witness of C6: a registry at address 0 with flags LINE set by
`Log::setTraceFlags`, an error statement at line 7. -/
theorem Channel.emit_line_witness :
    (Proc.start (Log.setTraceFlags 0 Trace.LINE
        (Log.Log ql_logInitFuncNone 0 0 World.empty)) "").status = Status.running ∧
    QL_ERROR 2 0 "M" { file := "a.c", line := 7, function := "f" }
        (Proc.start (Log.setTraceFlags 0 Trace.LINE
          (Log.Log ql_logInitFuncNone 0 0 World.empty)) "") =
      Proc.insertLine 2 0 StreamName.error
        ("Error: " ++ "M" ++ " [line: " ++ toString 7 ++ "]" ++ "\n")
        (Proc.start (Log.setTraceFlags 0 Trace.LINE
          (Log.Log ql_logInitFuncNone 0 0 World.empty)) "") :=
  ⟨rfl,
   (Channel.emit_line Channel.error 2 0 "M" { file := "a.c", line := 7, function := "f" }
      (Proc.start (Log.setTraceFlags 0 Trace.LINE
        (Log.Log ql_logInitFuncNone 0 0 World.empty)) "") rfl).2.1 (by decide)⟩

/-! ## Forwarding -/

theorem LogStream.write_ostream (w : World) (fuel : Nat) (a : Nat) (bytes : String) :
    LogStream.write w fuel (SinkRef.ostream a) bytes = some [(a, bytes)] := by
  cases fuel <;> rfl

theorem LogStream.write_logStream (w : World) (fuel : Nat) (l : Nat) (n : StreamName)
    (bytes : String) :
    LogStream.write w (fuel + 1) (SinkRef.logStream l n) bytes =
      writeAll (fun t => LogStream.write w fuel t bytes) (w.streams l n).m_streams := rfl

theorem writeAll_append (f : SinkRef → Option (List (Nat × String))) (xs ys : List SinkRef)
    (a b : List (Nat × String)) (hx : writeAll f xs = some a) (hy : writeAll f ys = some b) :
    writeAll f (xs ++ ys) = some (a ++ b) := by
  induction xs generalizing a with
  | nil =>
    simp [writeAll] at hx
    subst hx
    simpa using hy
  | cons t ts ih =>
    simp only [writeAll, List.cons_append] at hx ⊢
    cases ht : f t with
    | none => simp [ht] at hx
    | some d =>
      simp only [ht] at hx ⊢
      cases hts : writeAll f ts with
      | none => simp [hts] at hx
      | some ds =>
        simp only [hts, Option.some.injEq] at hx
        subst hx
        simp [ih ds hts]

theorem writeAll_ostreams (w : World) (fuel : Nat) (bytes : String) (sinks : List Nat) :
    writeAll (fun t => LogStream.write w fuel t bytes) (sinks.map SinkRef.ostream) =
      some (sinks.map (fun a => (a, bytes))) := by
  induction sinks with
  | nil => rfl
  | cons a as ih => simp [writeAll, LogStream.write_ostream, ih]

theorem World.attach_streams (w : World) (log : Nat) (name : StreamName) (sink : SinkRef)
    (l : Nat) (n : StreamName) :
    (w.attach log name sink).streams l n =
      if l = log ∧ n = name then (w.streams l n).attachStream sink else w.streams l n := rfl

theorem World.attachAll_streams (w : World) (log : Nat) (name : StreamName) (sinks : List Nat)
    (l : Nat) (n : StreamName) :
    (w.attachAll log name sinks).streams l n =
      if l = log ∧ n = name then
        { m_streams := (w.streams l n).m_streams ++ sinks.map SinkRef.ostream,
          m_traceFlags := (w.streams l n).m_traceFlags }
      else w.streams l n := by
  induction sinks generalizing w with
  | nil => simp [World.attachAll]
  | cons a as ih =>
    have h : w.attachAll log name (a :: as) =
        (w.attach log name (SinkRef.ostream a)).attachAll log name as := rfl
    rw [h, ih, World.attach_streams]
    split <;> simp [LogStream.attachStream]

theorem World.attachAll_ostreams (w : World) (log : Nat) (name : StreamName)
    (sinks : List Nat) : (w.attachAll log name sinks).ostreams = w.ostreams := by
  induction sinks generalizing w with
  | nil => rfl
  | cons a as ih =>
    have h : w.attachAll log name (a :: as) =
        (w.attach log name (SinkRef.ostream a)).attachAll log name as := rfl
    rw [h, ih]
    rfl

theorem World.deliver_streams (w : World) (ds : List (Nat × String)) :
    (w.deliver ds).streams = w.streams := by
  induction ds generalizing w with
  | nil => rfl
  | cons d ds ih =>
    obtain ⟨a, b⟩ := d
    simp only [World.deliver]
    rw [ih]

theorem World.deliver_not_mem (w : World) (ds : List (Nat × String)) (k : Nat)
    (h : ∀ d ∈ ds, d.1 ≠ k) : (w.deliver ds).ostreams k = w.ostreams k := by
  induction ds generalizing w with
  | nil => rfl
  | cons d ds ih =>
    obtain ⟨a, b⟩ := d
    simp only [World.deliver]
    rw [ih _ (fun d hd => h d (List.mem_cons_of_mem _ hd))]
    have hk : ¬ (k = a) := fun e => h (a, b) (List.mem_cons_self _ _) e.symm
    simp [hk]

theorem World.deliver_nodup (w : World) (sinks : List Nat) (bytes : String)
    (hnd : sinks.Nodup) (k : Nat) :
    (w.deliver (sinks.map (fun a => (a, bytes)))).ostreams k =
      if k ∈ sinks then w.ostreams k ++ bytes else w.ostreams k := by
  induction sinks generalizing w with
  | nil => simp [World.deliver]
  | cons a as ih =>
    rw [List.nodup_cons] at hnd
    simp only [List.map_cons, World.deliver]
    by_cases hk : k = a
    · subst hk
      rw [World.deliver_not_mem]
      · simp
      · intro d hd
        simp only [List.mem_map] at hd
        obtain ⟨x, hx, rfl⟩ := hd
        intro e
        exact hnd.1 (e ▸ hx)
    · rw [ih _ hnd.2]
      simp [hk]

theorem Channel.stream_ne_combined (c : Channel) : c.stream ≠ StreamName.combined := by
  cases c <;> simp [Channel.stream]

theorem World.freshWith_channel (w0 : World) (d : Int) (inst : Nat) (T : List Nat)
    (c : Channel) (S : List Nat) :
    (w0.freshWith d inst T c S).streams inst c.stream =
      { m_streams := [Log.combinedStream inst] ++ S.map SinkRef.ostream,
        m_traceFlags := if c = Channel.info then 0 else d } := by
  cases c <;>
    simp [World.freshWith, World.attachAll_streams, Log.Log_none_streams, Channel.stream]

theorem World.freshWith_combined (w0 : World) (d : Int) (inst : Nat) (T : List Nat)
    (c : Channel) (S : List Nat) :
    (w0.freshWith d inst T c S).streams inst StreamName.combined =
      { m_streams := T.map SinkRef.ostream, m_traceFlags := 0 } := by
  cases c <;>
    simp [World.freshWith, World.attachAll_streams, Log.Log_none_streams, Channel.stream]

theorem World.freshWith_ostreams (w0 : World) (d : Int) (inst : Nat) (T : List Nat)
    (c : Channel) (S : List Nat) : (w0.freshWith d inst T c S).ostreams = w0.ostreams := by
  simp [World.freshWith, World.attachAll_ostreams, Log.Log, ql_logInitFuncNone,
    World.modify_ostreams]

theorem World.freshWith_write (w0 : World) (d : Int) (inst : Nat) (T : List Nat)
    (c : Channel) (S : List Nat) (fuel : Nat) (bytes : String) :
    LogStream.write (w0.freshWith d inst T c S) (fuel + 2) (SinkRef.logStream inst c.stream)
        bytes = some ((T ++ S).map (fun a => (a, bytes))) := by
  rw [LogStream.write_logStream, World.freshWith_channel]
  simp only [List.map_append]
  apply writeAll_append
  · simp only [writeAll, Log.combinedStream, LogStream.write_logStream,
      World.freshWith_combined, writeAll_ostreams]
    simp
  · exact writeAll_ostreams _ _ _ _

/-- C1. A registry is constructed at `inst` with `ql_logInitFuncNone`, the
external streams `T` are attached to `combined` and afterwards the external
streams `S` to the stream of one of the seven channels `c`.  For every message
and call site, one statement of `c` in a running process returns (with any
fuel from 2 on); its deliveries are the fully rendered line to each entry of
`T`, then to each entry of `S`, in that order, and nothing else, followed by
the end of the process for `critical` and `fatal`.  When the entries of `T`
and `S` are distinct, each of them has received exactly the line, once, and
every other external stream is unchanged. -/
theorem Channel.emit_freshWith (c : Channel) (M : String) (site : CallSite) (d : Int)
    (inst : Nat) (w0 : World) (T S : List Nat) (clk : Clock) (effs : List Effect)
    (fuel : Nat) :
    c.emit (fuel + 2) inst M site
        { world := w0.freshWith d inst T c S, clock := clk, effects := effs,
          status := Status.running } =
      some (c.specFinish
        { world := (w0.freshWith d inst T c S).deliver
            ((T ++ S).map (fun a =>
              (a, c.specLine (if c = Channel.info then 0 else d) M site clk))),
          clock := (Trace.put "" clk
            { flags := if c = Channel.info then 0 else d, file := site.file,
              line := site.line, function := site.function }).2,
          effects := effs ++ (T ++ S).map (fun a =>
            Effect.write a (c.specLine (if c = Channel.info then 0 else d) M site clk)),
          status := Status.running }) ∧
    ((T ++ S).Nodup → ∀ k,
      ((w0.freshWith d inst T c S).deliver
          ((T ++ S).map (fun a =>
            (a, c.specLine (if c = Channel.info then 0 else d) M site clk)))).ostreams k =
        if k ∈ T ++ S then
          w0.ostreams k ++ c.specLine (if c = Channel.info then 0 else d) M site clk
        else w0.ostreams k) := by
  constructor
  · rw [Channel.emit_running c (fuel + 2) inst M site _ rfl]
    simp only [Proc.insertLine, World.freshWith_write, World.freshWith_channel,
      LogStream.traceFlags, Channel.specLine, Option.map_some', List.map_map]
    rfl
  · intro hnd k
    rw [World.deliver_nodup _ _ _ hnd, World.freshWith_ostreams]

/-- Witness of C1, the scenario of the specification: one in-memory stream
(address 7) on `combined`, a note statement with message x and flags 0; the
stream then holds exactly the line of the note. -/
theorem Channel.emit_freshWith_witness :
    ([7] ++ [] : List Nat).Nodup ∧
    ((World.empty.freshWith 0 0 [7] Channel.note []).deliver
        (([7] ++ []).map (fun a =>
          (a, Channel.note.specLine (if Channel.note = Channel.info then 0 else 0) "x"
            { file := "a.c", line := 1, function := "f" } (Clock.fixed ""))))).ostreams 7 =
      "Note: x\n" ∧
    (QL_NOTE 2 0 "x" { file := "a.c", line := 1, function := "f" }
        { world := World.empty.freshWith 0 0 [7] Channel.note [], clock := Clock.fixed "",
          effects := [], status := Status.running }).map
        (fun q => (q.effects, q.world.ostreams 7)) =
      some ([Effect.write 7 "Note: x\n"], "Note: x\n") :=
  ⟨by decide,
   ((Channel.emit_freshWith Channel.note "x" { file := "a.c", line := 1, function := "f" } 0 0
      World.empty [7] [] (Clock.fixed "") [] 0).2 (by decide) 7).trans (by decide),
   by decide⟩

theorem writeAll_some_of_mem (f : SinkRef → Option (List (Nat × String))) (xs : List SinkRef)
    (ds : List (Nat × String)) (h : writeAll f xs = some ds) (t : SinkRef) (ht : t ∈ xs) :
    ∃ d, f t = some d := by
  induction xs generalizing ds with
  | nil => simp at ht
  | cons x xs ih =>
    simp only [writeAll] at h
    cases hx : f x with
    | none => simp [hx] at h
    | some d =>
      simp only [hx] at h
      cases hxs : writeAll f xs with
      | none => simp [hxs] at h
      | some ds1 =>
        rcases List.mem_cons.1 ht with e | e
        · exact ⟨d, e ▸ hx⟩
        · exact ih ds1 hxs e

theorem writeAll_mem (f : SinkRef → Option (List (Nat × String))) (xs : List SinkRef)
    (ds : List (Nat × String)) (h : writeAll f xs = some ds) (x : Nat × String) :
    x ∈ ds ↔ ∃ t ∈ xs, ∃ d, f t = some d ∧ x ∈ d := by
  induction xs generalizing ds with
  | nil =>
    simp [writeAll] at h
    subst h
    simp
  | cons y ys ih =>
    simp only [writeAll] at h
    cases hy : f y with
    | none => simp [hy] at h
    | some d =>
      simp only [hy] at h
      cases hys : writeAll f ys with
      | none => simp [hys] at h
      | some ds1 =>
        simp only [hys, Option.some.injEq] at h
        subst h
        rw [List.mem_append, ih ds1 hys]
        constructor
        · rintro (hx | ⟨t, ht, d1, hd1, hx⟩)
          · exact ⟨y, List.mem_cons_self _ _, d, hy, hx⟩
          · exact ⟨t, List.mem_cons_of_mem _ ht, d1, hd1, hx⟩
        · rintro ⟨t, ht, d1, hd1, hx⟩
          rcases List.mem_cons.1 ht with e | e
          · subst e
            rw [hy] at hd1
            cases hd1
            exact Or.inl hx
          · exact Or.inr ⟨t, e, d1, hd1, hx⟩

theorem writeAll_congr (f g : SinkRef → Option (List (Nat × String))) (xs : List SinkRef)
    (ds : List (Nat × String)) (hfg : ∀ t ∈ xs, ∀ d, f t = some d → g t = some d)
    (h : writeAll f xs = some ds) : writeAll g xs = some ds := by
  induction xs generalizing ds with
  | nil => simpa [writeAll] using h
  | cons y ys ih =>
    simp only [writeAll] at h ⊢
    cases hy : f y with
    | none => simp [hy] at h
    | some d =>
      simp only [hy] at h
      cases hys : writeAll f ys with
      | none => simp [hys] at h
      | some ds1 =>
        simp only [hys] at h
        rw [hfg y (List.mem_cons_self _ _) d hy,
          ih ds1 (fun t ht => hfg t (List.mem_cons_of_mem _ ht)) hys]
        exact h

theorem writeAll_isSome (f : SinkRef → Option (List (Nat × String))) (xs : List SinkRef)
    (h : ∀ t ∈ xs, ∃ d, f t = some d) : ∃ ds, writeAll f xs = some ds := by
  induction xs with
  | nil => exact ⟨[], rfl⟩
  | cons y ys ih =>
    obtain ⟨d, hd⟩ := h y (List.mem_cons_self _ _)
    obtain ⟨ds, hds⟩ := ih (fun t ht => h t (List.mem_cons_of_mem _ ht))
    exact ⟨d ++ ds, by simp [writeAll, hd, hds]⟩

theorem LogStream.write_succ (w : World) (bytes : String) (fuel : Nat) (s : SinkRef)
    (ds : List (Nat × String)) (h : LogStream.write w fuel s bytes = some ds) :
    LogStream.write w (fuel + 1) s bytes = some ds := by
  induction fuel generalizing s ds with
  | zero =>
    cases s with
    | ostream a => rw [LogStream.write_ostream] at h ⊢; exact h
    | logStream l n => simp [LogStream.write] at h
  | succ k ih =>
    cases s with
    | ostream a => rw [LogStream.write_ostream] at h ⊢; exact h
    | logStream l n =>
      rw [LogStream.write_logStream] at h ⊢
      exact writeAll_congr _ _ _ _ (fun t _ d hd => ih t d hd) h

theorem LogStream.write_add (w : World) (bytes : String) (fuel k : Nat) (s : SinkRef)
    (ds : List (Nat × String)) (h : LogStream.write w fuel s bytes = some ds) :
    LogStream.write w (fuel + k) s bytes = some ds := by
  induction k with
  | zero => exact h
  | succ k ih => exact LogStream.write_succ _ _ _ _ _ ih

theorem LogStream.write_mem (w : World) (bytes : String) (fuel : Nat) (s : SinkRef)
    (ds : List (Nat × String)) (h : LogStream.write w fuel s bytes = some ds) (a : Nat)
    (b : String) : (a, b) ∈ ds ↔ b = bytes ∧ Reaches w s a := by
  induction fuel generalizing s ds with
  | zero =>
    cases s with
    | ostream k =>
      rw [LogStream.write_ostream] at h
      cases h
      constructor
      · intro hm
        simp only [List.mem_singleton, Prod.mk.injEq] at hm
        obtain ⟨rfl, rfl⟩ := hm
        exact ⟨rfl, Reaches.ostream _⟩
      · rintro ⟨rfl, hr⟩
        cases hr
        simp
    | logStream l n => simp [LogStream.write] at h
  | succ f ih =>
    cases s with
    | ostream k =>
      rw [LogStream.write_ostream] at h
      cases h
      constructor
      · intro hm
        simp only [List.mem_singleton, Prod.mk.injEq] at hm
        obtain ⟨rfl, rfl⟩ := hm
        exact ⟨rfl, Reaches.ostream _⟩
      · rintro ⟨rfl, hr⟩
        cases hr
        simp
    | logStream l n =>
      rw [LogStream.write_logStream] at h
      rw [writeAll_mem _ _ _ h]
      constructor
      · rintro ⟨t, ht, d, hd, hx⟩
        obtain ⟨hb, hr⟩ := (ih t d hd).1 hx
        exact ⟨hb, Reaches.logStream l n t a ht hr⟩
      · rintro ⟨hb, hr⟩
        cases hr with
        | logStream _ _ t _ ht hr =>
          obtain ⟨d, hd⟩ := writeAll_some_of_mem _ _ _ h t ht
          exact ⟨t, ht, d, hd, (ih t d hd).2 ⟨hb, hr⟩⟩

theorem LogStream.write_isSome (w : World) (P : SinkRef → Prop) (rank : SinkRef → Nat)
    (hac : Acyclic w P rank) (bytes : String) (fuel : Nat) (s : SinkRef) (hP : P s)
    (hr : rank s < fuel) : ∃ ds, LogStream.write w fuel s bytes = some ds := by
  induction fuel generalizing s with
  | zero => exact absurd hr (Nat.not_lt_zero _)
  | succ f ih =>
    cases s with
    | ostream a => exact ⟨_, LogStream.write_ostream _ _ _ _⟩
    | logStream l n =>
      rw [LogStream.write_logStream]
      apply writeAll_isSome
      intro t ht
      obtain ⟨hPt, hlt⟩ := hac l n t hP ht
      exact ih t hPt (by omega)

/-! ## Two registries -/

theorem World.attachLeaves_mem (w : World) (atts : List (Nat × StreamName × Nat)) (l : Nat)
    (n : StreamName) (t : SinkRef) :
    t ∈ ((w.attachLeaves atts).streams l n).m_streams ↔
      t ∈ (w.streams l n).m_streams ∨ ∃ a, t = SinkRef.ostream a ∧ (l, n, a) ∈ atts := by
  induction atts generalizing w with
  | nil => simp [World.attachLeaves]
  | cons x xs ih =>
    have h : w.attachLeaves (x :: xs) =
        (w.attach x.1 x.2.1 (SinkRef.ostream x.2.2)).attachLeaves xs := rfl
    rw [h, ih, World.attach_streams]
    obtain ⟨xl, xn, xa⟩ := x
    by_cases hc : l = xl ∧ n = xn
    · obtain ⟨rfl, rfl⟩ := hc
      simp only [and_self, if_true, LogStream.attachStream, List.mem_append,
        List.mem_singleton, List.mem_cons, Prod.mk.injEq, true_and, List.not_mem_nil,
        or_false]
      constructor
      · rintro ((h1 | h1) | ⟨a, h1, h2⟩)
        · exact Or.inl h1
        · exact Or.inr ⟨xa, h1, Or.inl rfl⟩
        · exact Or.inr ⟨a, h1, Or.inr h2⟩
      · rintro (h1 | ⟨a, h1, h2 | h2⟩)
        · exact Or.inl (Or.inl h1)
        · subst h2
          exact Or.inl (Or.inr h1)
        · exact Or.inr ⟨a, h1, h2⟩
    · simp only [hc, if_false, List.mem_cons, Prod.mk.injEq]
      constructor
      · rintro (h1 | ⟨a, h1, h2⟩)
        · exact Or.inl h1
        · exact Or.inr ⟨a, h1, Or.inr h2⟩
      · rintro (h1 | ⟨a, h1, h2 | h2⟩)
        · exact Or.inl h1
        · exact absurd ⟨h2.1, h2.2.1⟩ hc
        · exact Or.inr ⟨a, h1, h2⟩

theorem Log.Log_provided_streams (cout : Bool) (d : Int) (self : Nat) (w : World) (l : Nat)
    (n : StreamName) :
    (Log.Log (providedInitFunc cout) d self w).streams l n =
      if l = self then
        if n = StreamName.combined then
          { m_streams := if cout then [std_cout] else [], m_traceFlags := 0 }
        else if n = StreamName.info then
          { m_streams := [Log.combinedStream self], m_traceFlags := 0 }
        else { m_streams := [Log.combinedStream self], m_traceFlags := d }
      else w.streams l n := by
  cases cout
  · simp only [providedInitFunc, Bool.false_eq_true, if_false]
    exact Log.Log_none_streams d self w l n
  · simp only [providedInitFunc, if_true]
    exact Log.Log_cout_streams d self w l n

theorem World.pairWith_mem (w0 : World) (dA dB : Int) (coutA coutB : Bool) (A B : Nat)
    (hAB : A ≠ B) (atts1 atts2 : List (Nat × StreamName × Nat)) (t : SinkRef) :
    (t ∈ ((w0.pairWith dA dB coutA coutB A B atts1 atts2).streams A StreamName.warn).m_streams ↔
      (t = Log.combinedStream A ∨ t = Log.warnStream B) ∨
        ∃ a, t = SinkRef.ostream a ∧
          ((A, StreamName.warn, a) ∈ atts1 ∨ (A, StreamName.warn, a) ∈ atts2)) ∧
    (t ∈ ((w0.pairWith dA dB coutA coutB A B atts1 atts2).streams B StreamName.warn).m_streams ↔
      t = Log.combinedStream B ∨
        ∃ a, t = SinkRef.ostream a ∧
          ((B, StreamName.warn, a) ∈ atts1 ∨ (B, StreamName.warn, a) ∈ atts2)) ∧
    (t ∈ ((w0.pairWith dA dB coutA coutB A B atts1 atts2).streams A
        StreamName.combined).m_streams → ∃ a, t = SinkRef.ostream a) ∧
    (t ∈ ((w0.pairWith dA dB coutA coutB A B atts1 atts2).streams B
        StreamName.combined).m_streams → ∃ a, t = SinkRef.ostream a) := by
  have hBA : ¬ (B = A) := fun e => hAB e.symm
  refine ⟨?_, ?_, ?_, ?_⟩
  · simp [World.pairWith, World.attachLeaves_mem, Log.attachLog_streams,
      Log.Log_provided_streams, LogStream.attachStream, Log.combinedStream, Log.warnStream, hAB]
    constructor
    · rintro (((h | ⟨a, h1, h2⟩) | h) | ⟨a, h1, h2⟩)
      · exact Or.inl (Or.inl h)
      · exact Or.inr ⟨a, h1, Or.inl h2⟩
      · exact Or.inl (Or.inr h)
      · exact Or.inr ⟨a, h1, Or.inr h2⟩
    · rintro ((h | h) | ⟨a, h1, h2 | h2⟩)
      · exact Or.inl (Or.inl (Or.inl h))
      · exact Or.inl (Or.inr h)
      · exact Or.inl (Or.inl (Or.inr ⟨a, h1, h2⟩))
      · exact Or.inr ⟨a, h1, h2⟩
  · simp [World.pairWith, World.attachLeaves_mem, Log.attachLog_streams,
      Log.Log_provided_streams, LogStream.attachStream, Log.combinedStream, Log.warnStream, hBA]
    constructor
    · rintro ((h | ⟨a, h1, h2⟩) | ⟨a, h1, h2⟩)
      · exact Or.inl h
      · exact Or.inr ⟨a, h1, Or.inl h2⟩
      · exact Or.inr ⟨a, h1, Or.inr h2⟩
    · rintro (h | ⟨a, h1, h2 | h2⟩)
      · exact Or.inl (Or.inl h)
      · exact Or.inl (Or.inr ⟨a, h1, h2⟩)
      · exact Or.inr ⟨a, h1, h2⟩
  · cases coutA <;>
      simp [World.pairWith, World.attachLeaves_mem, Log.attachLog_streams,
        Log.Log_provided_streams, LogStream.attachStream, std_cout, hAB] <;> tauto
  · cases coutB <;>
      simp [World.pairWith, World.attachLeaves_mem, Log.attachLog_streams,
        Log.Log_provided_streams, LogStream.attachStream, std_cout, hBA] <;> tauto

/-- C7. Two distinct registries `A` and `B` are constructed, each with one of
the provided initialization functions, external streams are attached to any
of their streams before and after `A.attachLog(B)`.  A write of a line to the
`warn` stream of `A` then returns (with any fuel from 4 on) and delivers the
line to every external stream attached to `warn` of `B`, to every external
stream attached to `combined` of `B`, to every external stream attached to
`warn` of `A` and to every external stream attached to `combined` of `A`;
every delivery carries that line. -/
theorem Log.attachLog_forwards (A B : Nat) (hAB : A ≠ B) (w0 : World) (dA dB : Int)
    (coutA coutB : Bool) (atts1 atts2 : List (Nat × StreamName × Nat)) (line : String) :
    ∃ ds : List (Nat × String),
      (∀ fuel, LogStream.write (w0.pairWith dA dB coutA coutB A B atts1 atts2) (fuel + 4)
        (Log.warnStream A) line = some ds) ∧
      (∀ a, SinkRef.ostream a ∈
          ((w0.pairWith dA dB coutA coutB A B atts1 atts2).streams B StreamName.warn).m_streams →
        (a, line) ∈ ds) ∧
      (∀ a, SinkRef.ostream a ∈
          ((w0.pairWith dA dB coutA coutB A B atts1 atts2).streams B
            StreamName.combined).m_streams →
        (a, line) ∈ ds) ∧
      (∀ a, SinkRef.ostream a ∈
          ((w0.pairWith dA dB coutA coutB A B atts1 atts2).streams A StreamName.warn).m_streams →
        (a, line) ∈ ds) ∧
      (∀ a, SinkRef.ostream a ∈
          ((w0.pairWith dA dB coutA coutB A B atts1 atts2).streams A
            StreamName.combined).m_streams →
        (a, line) ∈ ds) ∧
      (∀ d ∈ ds, d.2 = line) := by
  have hac : Acyclic (w0.pairWith dA dB coutA coutB A B atts1 atts2)
      (fun s => (∃ a, s = SinkRef.ostream a) ∨ s = Log.warnStream A ∨
        s = Log.combinedStream A ∨ s = Log.warnStream B ∨ s = Log.combinedStream B)
      (fun s => match s with
        | SinkRef.ostream _ => 0
        | SinkRef.logStream l n => if n = StreamName.combined then 1 else if l = B then 2 else 3)
      := by
    intro l n t hP ht
    have hm := World.pairWith_mem w0 dA dB coutA coutB A B hAB atts1 atts2 t
    simp only [Log.warnStream, Log.combinedStream] at hP hm
    rcases hP with ⟨a, h⟩ | h | h | h | h
    · cases h
    · cases h
      rcases hm.1.1 ht with (h1 | h1) | ⟨a, h1, _⟩
      · subst h1
        simp [Log.warnStream, Log.combinedStream, hAB]
      · subst h1
        simp [Log.warnStream, Log.combinedStream, hAB]
      · subst h1
        simp [hAB]
    · cases h
      obtain ⟨a, h1⟩ := hm.2.2.1 ht
      subst h1
      simp [hAB]
    · cases h
      rcases hm.2.1.1 ht with h1 | ⟨a, h1, _⟩
      · subst h1
        simp [Log.warnStream, Log.combinedStream, hAB]
      · subst h1
        simp [hAB]
    · cases h
      obtain ⟨a, h1⟩ := hm.2.2.2 ht
      subst h1
      simp [hAB]
  obtain ⟨ds, hds⟩ := LogStream.write_isSome _ _ _ hac line 4 (Log.warnStream A)
    (Or.inr (Or.inl rfl)) (by simp [Log.warnStream, hAB])
  have hBwarn : Log.warnStream B ∈
      ((w0.pairWith dA dB coutA coutB A B atts1 atts2).streams A StreamName.warn).m_streams :=
    (World.pairWith_mem w0 dA dB coutA coutB A B hAB atts1 atts2 _).1.2 (Or.inl (Or.inr rfl))
  have hAcomb : Log.combinedStream A ∈
      ((w0.pairWith dA dB coutA coutB A B atts1 atts2).streams A StreamName.warn).m_streams :=
    (World.pairWith_mem w0 dA dB coutA coutB A B hAB atts1 atts2 _).1.2 (Or.inl (Or.inl rfl))
  have hBcomb : Log.combinedStream B ∈
      ((w0.pairWith dA dB coutA coutB A B atts1 atts2).streams B StreamName.warn).m_streams :=
    (World.pairWith_mem w0 dA dB coutA coutB A B hAB atts1 atts2 _).2.1.2 (Or.inl rfl)
  refine ⟨ds, ?_, ?_, ?_, ?_, ?_, ?_⟩
  · intro fuel
    rw [Nat.add_comm]
    exact LogStream.write_add _ _ _ _ _ _ hds
  · intro a ha
    refine (LogStream.write_mem _ _ _ _ _ hds a line).2 ⟨rfl, ?_⟩
    exact Reaches.logStream _ _ _ _ hBwarn
      (Reaches.logStream _ _ _ _ ha (Reaches.ostream a))
  · intro a ha
    refine (LogStream.write_mem _ _ _ _ _ hds a line).2 ⟨rfl, ?_⟩
    exact Reaches.logStream _ _ _ _ hBwarn
      (Reaches.logStream _ _ _ _ hBcomb (Reaches.logStream _ _ _ _ ha (Reaches.ostream a)))
  · intro a ha
    refine (LogStream.write_mem _ _ _ _ _ hds a line).2 ⟨rfl, ?_⟩
    exact Reaches.logStream _ _ _ _ ha (Reaches.ostream a)
  · intro a ha
    refine (LogStream.write_mem _ _ _ _ _ hds a line).2 ⟨rfl, ?_⟩
    exact Reaches.logStream _ _ _ _ hAcomb (Reaches.logStream _ _ _ _ ha (Reaches.ostream a))
  · intro d hd
    exact ((LogStream.write_mem _ _ _ _ _ hds d.1 d.2).1 hd).1

/-- Witness of C7: registries at addresses 1 and 2 in the empty memory, the
first with `ql_logInitFuncCout`; external stream 5 on `warn` of 2, external
stream 6 on `combined` of 2 and external stream 7 on `warn` of 1. -/
theorem Log.attachLog_forwards_witness :
    (1 : Nat) ≠ 2 ∧
    LogStream.write (World.empty.pairWith 0 0 true false 1 2
        [(2, StreamName.warn, 5), (2, StreamName.combined, 6)] [(1, StreamName.warn, 7)]) 4
        (Log.warnStream 1) "L" = some [(0, "L"), (6, "L"), (5, "L"), (7, "L")] ∧
    ∃ ds : List (Nat × String),
      (∀ fuel, LogStream.write (World.empty.pairWith 0 0 true false 1 2
        [(2, StreamName.warn, 5), (2, StreamName.combined, 6)] [(1, StreamName.warn, 7)])
        (fuel + 4) (Log.warnStream 1) "L" = some ds) ∧
      (∀ a, SinkRef.ostream a ∈
          ((World.empty.pairWith 0 0 true false 1 2
            [(2, StreamName.warn, 5), (2, StreamName.combined, 6)]
            [(1, StreamName.warn, 7)]).streams 2 StreamName.warn).m_streams →
        (a, "L") ∈ ds) :=
  ⟨by decide, by decide,
   (Log.attachLog_forwards 1 2 (by decide) World.empty 0 0 true false
      [(2, StreamName.warn, 5), (2, StreamName.combined, 6)] [(1, StreamName.warn, 7)] "L").imp
      (fun _ h => ⟨h.1, h.2.1⟩)⟩

/-! ## Statements that end the process -/

theorem LogStream.write_acyclic (w : World) (P : SinkRef → Prop) (rank : SinkRef → Nat)
    (hac : Acyclic w P rank) (bytes : String) (s : SinkRef) (hP : P s) :
    ∃ ds : List (Nat × String),
      (∀ fuel, rank s < fuel → LogStream.write w fuel s bytes = some ds) ∧
      ∀ a b, (a, b) ∈ ds ↔ b = bytes ∧ Reaches w s a := by
  obtain ⟨ds, hds⟩ := LogStream.write_isSome w P rank hac bytes (rank s + 1) s hP
    (Nat.lt_succ_self _)
  refine ⟨ds, ?_, fun a b => LogStream.write_mem w bytes _ s ds hds a b⟩
  intro fuel hf
  obtain ⟨k, rfl⟩ := Nat.exists_eq_add_of_le (Nat.succ_le_of_lt hf)
  exact LogStream.write_add _ _ _ _ _ _ hds

theorem Channel.emit_ended (q : Proc) (hq : q.status ≠ Status.running) (c : Channel)
    (fuel inst : Nat) (M : String) (site : CallSite) : c.emit fuel inst M site q = some q := by
  rw [Channel.emit_eq]
  cases hs : q.status with
  | running => exact absurd hs hq
  | exited st => cases c <;> simp [Proc.log, hs, Channel.specFinish, std_exit, std_abort]
  | aborted => cases c <;> simp [Proc.log, hs, Channel.specFinish, std_exit, std_abort]

/-- C10. In a running process whose attachment graph has no cycle below the
`critical` and `fatal` streams, a critical statement returns (with any fuel
above the rank of the stream) and its effects are, in this order: the
deliveries of the complete line (label, message, trace, terminator), one to
exactly the external streams that can be reached from the `critical` stream,
among them every external stream attached to it directly and every one
attached to `combined` when `combined` is attached to it, and then, last, the
exit with `EXIT_FAILURE`.  The same holds for a fatal statement with its label
and with the abort as last effect.  A process that has ended performs no
statement: every later statement leaves it as it is. -/
theorem QL_CRITICAL_QL_FATAL_effects (inst : Nat) (M : String) (site : CallSite) (p : Proc)
    (hrun : p.status = Status.running) (P : SinkRef → Prop) (rank : SinkRef → Nat)
    (hac : Acyclic p.world P rank) (hPc : P (Log.criticalStream inst))
    (hPf : P (Log.fatalStream inst)) :
    (∃ ds : List (Nat × String),
      (∀ fuel, rank (Log.criticalStream inst) < fuel →
        QL_CRITICAL fuel inst M site p =
          some { world := p.world.deliver ds,
                 clock := (Trace.put "" p.clock
                   { flags := (p.world.streams inst StreamName.critical).traceFlags,
                     file := site.file, line := site.line, function := site.function }).2,
                 effects := p.effects ++ ds.map Effect.ofDelivery ++
                   [Effect.exit ExitStatus.EXIT_FAILURE],
                 status := Status.exited ExitStatus.EXIT_FAILURE }) ∧
      (∀ a b, (a, b) ∈ ds ↔
        b = Channel.critical.specLine (p.world.streams inst StreamName.critical).traceFlags
              M site p.clock ∧
        Reaches p.world (Log.criticalStream inst) a) ∧
      (∀ a, SinkRef.ostream a ∈ (p.world.streams inst StreamName.critical).m_streams →
        (a, Channel.critical.specLine (p.world.streams inst StreamName.critical).traceFlags
              M site p.clock) ∈ ds) ∧
      (∀ a, Log.combinedStream inst ∈ (p.world.streams inst StreamName.critical).m_streams →
        SinkRef.ostream a ∈ (p.world.streams inst StreamName.combined).m_streams →
        (a, Channel.critical.specLine (p.world.streams inst StreamName.critical).traceFlags
              M site p.clock) ∈ ds)) ∧
    (∃ ds : List (Nat × String),
      (∀ fuel, rank (Log.fatalStream inst) < fuel →
        QL_FATAL fuel inst M site p =
          some { world := p.world.deliver ds,
                 clock := (Trace.put "" p.clock
                   { flags := (p.world.streams inst StreamName.fatal).traceFlags,
                     file := site.file, line := site.line, function := site.function }).2,
                 effects := p.effects ++ ds.map Effect.ofDelivery ++ [Effect.abort],
                 status := Status.aborted }) ∧
      (∀ a b, (a, b) ∈ ds ↔
        b = Channel.fatal.specLine (p.world.streams inst StreamName.fatal).traceFlags
              M site p.clock ∧
        Reaches p.world (Log.fatalStream inst) a) ∧
      (∀ a, SinkRef.ostream a ∈ (p.world.streams inst StreamName.fatal).m_streams →
        (a, Channel.fatal.specLine (p.world.streams inst StreamName.fatal).traceFlags
              M site p.clock) ∈ ds) ∧
      (∀ a, Log.combinedStream inst ∈ (p.world.streams inst StreamName.fatal).m_streams →
        SinkRef.ostream a ∈ (p.world.streams inst StreamName.combined).m_streams →
        (a, Channel.fatal.specLine (p.world.streams inst StreamName.fatal).traceFlags
              M site p.clock) ∈ ds)) ∧
    (∀ q : Proc, q.status ≠ Status.running → ∀ (c : Channel) (fuel i : Nat) (M1 : String)
      (site1 : CallSite), c.emit fuel i M1 site1 q = some q) := by
  obtain ⟨w, clk, effs, st⟩ := p
  simp only at hrun hac
  subst hrun
  refine ⟨?_, ?_, fun q hq c fuel i M1 site1 => Channel.emit_ended q hq c fuel i M1 site1⟩
  · obtain ⟨ds, hds, hmem⟩ := LogStream.write_acyclic w P rank hac
      (Channel.critical.specLine (w.streams inst StreamName.critical).traceFlags M site clk)
      (Log.criticalStream inst) hPc
    refine ⟨ds, ?_, hmem, ?_, ?_⟩
    · intro fuel hf
      have h := Channel.emit_running Channel.critical fuel inst M site
        { world := w, clock := clk, effects := effs, status := Status.running } rfl
      simp only [Channel.emit, Channel.stream, Channel.specFinish] at h
      rw [h]
      have hw := hds fuel hf
      simp only [Log.criticalStream, Channel.specLine] at hw
      simp only [Proc.insertLine, hw, Option.map_some', std_exit]
    · intro a ha
      exact (hmem a _).2 ⟨rfl, Reaches.logStream _ _ _ _ ha (Reaches.ostream a)⟩
    · intro a hc ha
      exact (hmem a _).2 ⟨rfl, Reaches.logStream _ _ _ _ hc
        (Reaches.logStream _ _ _ _ ha (Reaches.ostream a))⟩
  · obtain ⟨ds, hds, hmem⟩ := LogStream.write_acyclic w P rank hac
      (Channel.fatal.specLine (w.streams inst StreamName.fatal).traceFlags M site clk)
      (Log.fatalStream inst) hPf
    refine ⟨ds, ?_, hmem, ?_, ?_⟩
    · intro fuel hf
      have h := Channel.emit_running Channel.fatal fuel inst M site
        { world := w, clock := clk, effects := effs, status := Status.running } rfl
      simp only [Channel.emit, Channel.stream, Channel.specFinish] at h
      rw [h]
      have hw := hds fuel hf
      simp only [Log.fatalStream, Channel.specLine] at hw
      simp only [Proc.insertLine, hw, Option.map_some', std_abort]
    · intro a ha
      exact (hmem a _).2 ⟨rfl, Reaches.logStream _ _ _ _ ha (Reaches.ostream a)⟩
    · intro a hc ha
      exact (hmem a _).2 ⟨rfl, Reaches.logStream _ _ _ _ hc
        (Reaches.logStream _ _ _ _ ha (Reaches.ostream a))⟩

theorem Log.Log_cout_acyclic (d : Int) (self : Nat) :
    Acyclic (Log.Log ql_logInitFuncCout d self World.empty) (fun _ => True) freshRank := by
  intro l n t _ ht
  rw [Log.Log_cout_streams] at ht
  refine ⟨trivial, ?_⟩
  by_cases hl : l = self
  · cases n <;> simp [hl, std_cout, Log.combinedStream] at ht <;> subst ht <;>
      simp [freshRank]
  · simp [hl, World.empty] at ht

/-- Witness of C10: a registry at address 0 constructed with
`ql_logInitFuncCout` in the empty memory; the critical statement writes its
line to `std::cout` and then exits, the fatal statement writes its line and
then aborts. -/
theorem QL_CRITICAL_QL_FATAL_effects_witness :
    (Proc.start (Log.Log ql_logInitFuncCout 0 0 World.empty) "").status = Status.running ∧
    (QL_CRITICAL 3 0 "m" { file := "a.c", line := 1, function := "f" }
        (Proc.start (Log.Log ql_logInitFuncCout 0 0 World.empty) "")).map
        (fun q => (q.effects, q.status)) =
      some ([Effect.write 0 "Critical error: m\n", Effect.exit ExitStatus.EXIT_FAILURE],
        Status.exited ExitStatus.EXIT_FAILURE) ∧
    (QL_FATAL 3 0 "m" { file := "a.c", line := 1, function := "f" }
        (Proc.start (Log.Log ql_logInitFuncCout 0 0 World.empty) "")).map
        (fun q => (q.effects, q.status)) =
      some ([Effect.write 0 "Fatal error: m\n", Effect.abort], Status.aborted) ∧
    (∃ ds : List (Nat × String), ∀ fuel, freshRank (Log.criticalStream 0) < fuel →
      (QL_CRITICAL fuel 0 "m" { file := "a.c", line := 1, function := "f" }
        (Proc.start (Log.Log ql_logInitFuncCout 0 0 World.empty) "")).map
        (fun q => (q.effects, q.status)) =
      some ([] ++ ds.map Effect.ofDelivery ++ [Effect.exit ExitStatus.EXIT_FAILURE],
        Status.exited ExitStatus.EXIT_FAILURE)) :=
  ⟨rfl, by decide, by decide,
   (QL_CRITICAL_QL_FATAL_effects 0 "m" { file := "a.c", line := 1, function := "f" }
      (Proc.start (Log.Log ql_logInitFuncCout 0 0 World.empty) "") rfl (fun _ => True)
      freshRank (Log.Log_cout_acyclic 0 0) trivial trivial).1.imp
      (fun _ h fuel hf => by rw [h.1 fuel hf]; rfl)⟩

/-! ## Trace: bits outside the defined flags -/

theorem nat_ldiff_and (a b n : Nat) : Nat.ldiff a n &&& b = Nat.ldiff (a &&& b) n := by
  apply Nat.eq_of_testBit_eq
  intro i
  simp only [Nat.testBit_ldiff, Nat.testBit_and]
  cases a.testBit i <;> cases b.testBit i <;> cases n.testBit i <;> rfl

theorem int_land_land (f : Int) (a k : Nat) (hk : a &&& k = k) :
    Int.land (Int.land f a) k = Int.land f k := by
  cases f with
  | ofNat n =>
    show ((n &&& a &&& k : Nat) : Int) = ((n &&& k : Nat) : Int)
    rw [Nat.and_assoc, hk]
  | negSucc n =>
    show ((Nat.ldiff a n &&& k : Nat) : Int) = ((Nat.ldiff k n : Nat) : Int)
    rw [nat_ldiff_and, hk]

theorem int_land_bound (f : Int) (a : Nat) :
    ∃ m : Nat, m ≤ a ∧ Int.land f a = (m : Int) := by
  cases f with
  | ofNat n => exact ⟨n &&& a, Nat.and_le_right, rfl⟩
  | negSucc n =>
    refine ⟨Nat.ldiff a n, ?_, rfl⟩
    have h : Nat.ldiff a n = Nat.ldiff a n &&& a := by
      rw [nat_ldiff_and, Nat.and_self]
    rw [h]
    exact Nat.and_le_right

theorem Trace.specFields_length (trace : Trace) (date : String) :
    (trace.specFields date).length =
      (if Int.land trace.flags Trace.FILE ≠ 0 then 1 else 0) +
      (if Int.land trace.flags Trace.LINE ≠ 0 then 1 else 0) +
      (if Int.land trace.flags Trace.FUNCTION ≠ 0 then 1 else 0) +
      (if Int.land trace.flags Trace.DATE ≠ 0 then 1 else 0) := by
  by_cases h1 : Int.land trace.flags Trace.FILE = 0 <;>
  by_cases h2 : Int.land trace.flags Trace.LINE = 0 <;>
  by_cases h3 : Int.land trace.flags Trace.FUNCTION = 0 <;>
  by_cases h4 : Int.land trace.flags Trace.DATE = 0 <;>
  simp [Trace.specFields, h1, h2, h3, h4]

theorem Trace.put_congr (s : String) (clk : Clock) (t1 t2 : Trace)
    (h0 : t1.flags ≠ 0 ↔ t2.flags ≠ 0)
    (h1 : Int.land t1.flags Trace.FILE = Int.land t2.flags Trace.FILE)
    (h2 : Int.land t1.flags Trace.LINE = Int.land t2.flags Trace.LINE)
    (h4 : Int.land t1.flags Trace.FUNCTION = Int.land t2.flags Trace.FUNCTION)
    (h8 : Int.land t1.flags Trace.DATE = Int.land t2.flags Trace.DATE)
    (hfile : t1.file = t2.file) (hline : t1.line = t2.line)
    (hfunction : t1.function = t2.function) :
    Trace.put s clk t1 = Trace.put s clk t2 := by
  by_cases hz : t1.flags = 0
  · have hz2 : t2.flags = 0 := by
      by_contra hne
      exact (h0.2 hne) hz
    simp [Trace.put, hz, hz2]
  · have hz2 : t2.flags ≠ 0 := h0.1 hz
    simp only [Trace.put, ne_eq, hz, hz2, not_false_eq_true, if_true, h1, h2, h4, h8, hfile,
      hline, hfunction]

theorem Trace.render_of_defined_bit (trace : Trace) (clk : Clock)
    (h : Int.land trace.flags Trace.FILE ≠ 0 ∨ Int.land trace.flags Trace.LINE ≠ 0 ∨
      Int.land trace.flags Trace.FUNCTION ≠ 0 ∨ Int.land trace.flags Trace.DATE ≠ 0) :
    trace.render clk = trace.specRender (clk.localtime clk.reads) := by
  have h0 : trace.flags ≠ 0 := by
    intro h0
    rw [h0] at h
    revert h
    decide
  by_cases h1 : Int.land trace.flags Trace.FILE = 0 <;>
  by_cases h2 : Int.land trace.flags Trace.LINE = 0 <;>
  by_cases h3 : Int.land trace.flags Trace.FUNCTION = 0 <;>
  by_cases h4 : Int.land trace.flags Trace.DATE = 0 <;>
  simp [Trace.render, Trace.put, Trace.specRender, Trace.specFields, h0, h1, h2, h3, h4,
    String.intercalate, String.intercalate.go, String.ext_iff, String.data_append] at h ⊢

/-- C11. Bits outside the four defined trace flags do not change a rendering
that has at least one defined field.  For every flags value with flags & 15
different from 0 and every file, line, function and clock (date text), the
insertion of the trace with these flags writes the same text, and reads the
clock the same way, as the insertion with flags & 15; the rendering is the
bracketed list of the fields, and the number of fields is the number of set
bits of flags & 15. -/
theorem Trace.render_land_fifteen (trace : Trace) (clk : Clock)
    (h15 : Int.land trace.flags 15 ≠ 0) :
    trace.render clk =
      Trace.render { flags := Int.land trace.flags 15, file := trace.file, line := trace.line,
                     function := trace.function } clk ∧
    (∀ s : String, Trace.put s clk trace =
      Trace.put s clk { flags := Int.land trace.flags 15, file := trace.file,
                        line := trace.line, function := trace.function }) ∧
    trace.render clk =
      " " ++ "[" ++ String.intercalate " " (trace.specFields (clk.localtime clk.reads)) ++ "]" ∧
    (trace.specFields (clk.localtime clk.reads)).length = setBits (Int.land trace.flags 15) := by
  have e1 : Int.land (Int.land trace.flags 15) Trace.FILE = Int.land trace.flags Trace.FILE :=
    int_land_land trace.flags 15 1 (by decide)
  have e2 : Int.land (Int.land trace.flags 15) Trace.LINE = Int.land trace.flags Trace.LINE :=
    int_land_land trace.flags 15 2 (by decide)
  have e4 : Int.land (Int.land trace.flags 15) Trace.FUNCTION =
      Int.land trace.flags Trace.FUNCTION := int_land_land trace.flags 15 4 (by decide)
  have e8 : Int.land (Int.land trace.flags 15) Trace.DATE = Int.land trace.flags Trace.DATE :=
    int_land_land trace.flags 15 8 (by decide)
  have h0 : trace.flags ≠ 0 := by
    intro h0
    rw [h0] at h15
    revert h15
    decide
  have hput : ∀ s : String, Trace.put s clk trace =
      Trace.put s clk { flags := Int.land trace.flags 15, file := trace.file,
                        line := trace.line, function := trace.function } := by
    intro s
    exact Trace.put_congr s clk _ _ ⟨fun _ => h15, fun _ => h0⟩ e1.symm e2.symm e4.symm e8.symm
      rfl rfl rfl
  refine ⟨?_, hput, ?_, ?_⟩
  · simp only [Trace.render, hput]
  · exact Trace.render_of_defined_bit trace clk (int_land_fifteen trace.flags h15)
  · rw [Trace.specFields_length, ← e1, ← e2, ← e4, ← e8]
    obtain ⟨m, hm, hEq⟩ := int_land_bound trace.flags 15
    simp only [Nat.cast_ofNat] at hEq
    rw [hEq]
    simp only [Trace.FILE, Trace.LINE, Trace.FUNCTION, Trace.DATE]
    interval_cases m <;> decide

/-- Witness of C11: flags 19 are FILE|LINE with bit 16 set as well. -/
theorem Trace.render_land_fifteen_witness :
    Int.land 19 15 ≠ 0 ∧
    Trace.render { flags := 19, file := "a.c", line := 10, function := "f" } (Clock.fixed "") =
      Trace.render { flags := Int.land 19 15, file := "a.c", line := 10, function := "f" }
        (Clock.fixed "") ∧
    Trace.render { flags := 19, file := "a.c", line := 10, function := "f" } (Clock.fixed "") =
      " [file: a.c line: 10]" ∧
    setBits (Int.land 19 15) = 2 :=
  ⟨by decide,
   (Trace.render_land_fifteen { flags := 19, file := "a.c", line := 10, function := "f" }
      (Clock.fixed "") (by decide)).1,
   by decide, by decide⟩

/-! ## Two registries with a shared external stream -/

theorem LogStream.write_shared (w : World) (A B S : Nat) (n : StreamName) (line : String)
    (fuel : Nat)
    (hA : (w.streams A n).m_streams = [Log.combinedStream A, SinkRef.logStream B n])
    (hB : (w.streams B n).m_streams = [Log.combinedStream B])
    (hAc : (w.streams A StreamName.combined).m_streams = [SinkRef.ostream S])
    (hBc : (w.streams B StreamName.combined).m_streams = [SinkRef.ostream S]) :
    LogStream.write w (fuel + 1) (Log.combinedStream A) line = some [(S, line)] ∧
    LogStream.write w (fuel + 1) (Log.combinedStream B) line = some [(S, line)] ∧
    LogStream.write w (fuel + 2) (SinkRef.logStream B n) line = some [(S, line)] ∧
    LogStream.write w (fuel + 3) (SinkRef.logStream A n) line =
      some ([(S, line)] ++ [(S, line)]) := by
  have h1 : ∀ f, LogStream.write w (f + 1) (Log.combinedStream A) line = some [(S, line)] := by
    intro f
    simp [Log.combinedStream, LogStream.write_logStream, hAc, writeAll,
      LogStream.write_ostream]
  have h2 : ∀ f, LogStream.write w (f + 1) (Log.combinedStream B) line = some [(S, line)] := by
    intro f
    simp [Log.combinedStream, LogStream.write_logStream, hBc, writeAll,
      LogStream.write_ostream]
  have h3 : ∀ f, LogStream.write w (f + 2) (SinkRef.logStream B n) line =
      some [(S, line)] := by
    intro f
    rw [LogStream.write_logStream, hB]
    simp [writeAll, h2 f]
  refine ⟨h1 fuel, h2 fuel, h3 fuel, ?_⟩
  rw [LogStream.write_logStream, hA]
  simp [writeAll, h1 (fuel + 1), h3 fuel]

theorem World.sharedWith_streams (w0 : World) (dA dB : Int) (A B S : Nat) (hAB : A ≠ B)
    (c : Channel) :
    ((w0.sharedWith dA dB A B S).streams A c.stream).m_streams =
      [Log.combinedStream A, SinkRef.logStream B c.stream] ∧
    ((w0.sharedWith dA dB A B S).streams B c.stream).m_streams = [Log.combinedStream B] ∧
    ((w0.sharedWith dA dB A B S).streams A StreamName.combined).m_streams =
      [SinkRef.ostream S] ∧
    ((w0.sharedWith dA dB A B S).streams B StreamName.combined).m_streams =
      [SinkRef.ostream S] := by
  have hBA : ¬ (B = A) := fun e => hAB e.symm
  cases c <;>
    simp [World.sharedWith, Log.attachLog_streams, World.attach_streams, Log.Log_none_streams,
      LogStream.attachStream, Channel.stream, Log.combinedStream, hAB, hBA]

theorem World.sharedCout_streams (w0 : World) (dA dB : Int) (A B : Nat) (hAB : A ≠ B)
    (c : Channel) :
    ((w0.sharedCout dA dB A B).streams A c.stream).m_streams =
      [Log.combinedStream A, SinkRef.logStream B c.stream] ∧
    ((w0.sharedCout dA dB A B).streams B c.stream).m_streams = [Log.combinedStream B] ∧
    ((w0.sharedCout dA dB A B).streams A StreamName.combined).m_streams =
      [SinkRef.ostream 0] ∧
    ((w0.sharedCout dA dB A B).streams B StreamName.combined).m_streams =
      [SinkRef.ostream 0] := by
  have hBA : ¬ (B = A) := fun e => hAB e.symm
  cases c <;>
    simp [World.sharedCout, Log.attachLog_streams, Log.Log_cout_streams,
      LogStream.attachStream, Channel.stream, Log.combinedStream, std_cout, hAB, hBA]

theorem World.deliver_two (w : World) (S : Nat) (line : String) :
    (w.deliver ([(S, line)] ++ [(S, line)])).ostreams S = w.ostreams S ++ line ++ line ∧
    (w.deliver [(S, line)]).ostreams S = w.ostreams S ++ line ∧
    ∀ k, k ≠ S → (w.deliver ([(S, line)] ++ [(S, line)])).ostreams k = w.ostreams k := by
  refine ⟨by simp [World.deliver], by simp [World.deliver], ?_⟩
  intro k hk
  simp [World.deliver, hk]

theorem World.sharedWith_flags (w0 : World) (dA dB : Int) (A B S : Nat) (hAB : A ≠ B)
    (c : Channel) :
    ((w0.sharedWith dA dB A B S).streams A c.stream).traceFlags =
      if c = Channel.info then 0 else dA := by
  have hBA : ¬ (B = A) := fun e => hAB e.symm
  cases c <;>
    simp [World.sharedWith, Log.attachLog_streams, World.attach_streams, Log.Log_none_streams,
      LogStream.attachStream, LogStream.traceFlags, Channel.stream, hAB, hBA]

/-- C12. Two distinct registries `A` and `B` are freshly constructed, the
same external stream `S` is attached to `combined` of both (or both are
built with the default `ql_logInitFuncCout`, and `S` is `std::cout`), and
`A.attachLog(B)` is called.  The stream of each of the seven channels of `A`
then holds `combined` of `A` first and the stream of `B` of the same name
second; one write of a line to it returns (with any fuel from 3 on) and
delivers exactly two copies of the line to `S`, the first being the delivery
through `combined` of `A`, the second the delivery through the stream of `B`
and `combined` of `B`, so that `S` has received the line twice; a logging
statement of the channel on `A` has exactly these two writes as effects.  One
write to the stream of `B` delivers exactly one copy. -/
theorem Log.attachLog_shared_sink (A B : Nat) (hAB : A ≠ B) (w0 : World) (dA dB : Int)
    (S : Nat) (c : Channel) (line : String) (fuel : Nat) :
    ((w0.sharedWith dA dB A B S).streams A c.stream).m_streams =
      [Log.combinedStream A, SinkRef.logStream B c.stream] ∧
    LogStream.write (w0.sharedWith dA dB A B S) (fuel + 1) (Log.combinedStream A) line =
      some [(S, line)] ∧
    LogStream.write (w0.sharedWith dA dB A B S) (fuel + 2) (SinkRef.logStream B c.stream) line =
      some [(S, line)] ∧
    LogStream.write (w0.sharedWith dA dB A B S) (fuel + 3) (SinkRef.logStream A c.stream) line =
      some [(S, line), (S, line)] ∧
    ((w0.sharedWith dA dB A B S).deliver [(S, line), (S, line)]).ostreams S =
      w0.ostreams S ++ line ++ line ∧
    ((w0.sharedWith dA dB A B S).deliver [(S, line)]).ostreams S = w0.ostreams S ++ line ∧
    (∀ (M : String) (site : CallSite) (clk : Clock) (effs : List Effect),
      c.emit (fuel + 3) A M site
          { world := w0.sharedWith dA dB A B S, clock := clk, effects := effs,
            status := Status.running } =
        some (c.specFinish
          { world := (w0.sharedWith dA dB A B S).deliver
              [(S, c.specLine (if c = Channel.info then 0 else dA) M site clk),
               (S, c.specLine (if c = Channel.info then 0 else dA) M site clk)],
            clock := (Trace.put "" clk
              { flags := if c = Channel.info then 0 else dA, file := site.file,
                line := site.line, function := site.function }).2,
            effects := effs ++
              [Effect.write S (c.specLine (if c = Channel.info then 0 else dA) M site clk),
               Effect.write S (c.specLine (if c = Channel.info then 0 else dA) M site clk)],
            status := Status.running })) ∧
    LogStream.write (w0.sharedCout dA dB A B) (fuel + 3) (SinkRef.logStream A c.stream) line =
      some [(0, line), (0, line)] ∧
    LogStream.write (w0.sharedCout dA dB A B) (fuel + 2) (SinkRef.logStream B c.stream) line =
      some [(0, line)] := by
  obtain ⟨hA, hB, hAc, hBc⟩ := World.sharedWith_streams w0 dA dB A B S hAB c
  obtain ⟨kA, kB, kAc, kBc⟩ := World.sharedCout_streams w0 dA dB A B hAB c
  have hw := fun l => LogStream.write_shared (w0.sharedWith dA dB A B S) A B S c.stream l fuel
    hA hB hAc hBc
  have kw := LogStream.write_shared (w0.sharedCout dA dB A B) A B 0 c.stream line fuel
    kA kB kAc kBc
  have ho : (w0.sharedWith dA dB A B S).ostreams = w0.ostreams := rfl
  have hd := World.deliver_two (w0.sharedWith dA dB A B S) S line
  rw [ho] at hd
  refine ⟨hA, (hw line).1, (hw line).2.2.1, (hw line).2.2.2, hd.1, hd.2.1, ?_, kw.2.2.2,
    kw.2.2.1⟩
  intro M site clk effs
  rw [Channel.emit_running c (fuel + 3) A M site _ rfl]
  have hline := (hw (c.specLine (if c = Channel.info then 0 else dA) M site clk)).2.2.2
  simp only [Channel.specLine] at hline
  simp only [Proc.insertLine, World.sharedWith_flags w0 dA dB A B S hAB c, Channel.specLine,
    hline, Option.map_some']
  rfl

/-- Witness of C12: registries at addresses 1 and 2 in the empty memory, the
shared external stream 7, the channel `warn`. -/
theorem Log.attachLog_shared_sink_witness :
    (1 : Nat) ≠ 2 ∧
    LogStream.write (World.empty.sharedWith 0 0 1 2 7) (0 + 3)
        (SinkRef.logStream 1 Channel.warn.stream) "L" = some [(7, "L"), (7, "L")] ∧
    LogStream.write (World.empty.sharedWith 0 0 1 2 7) 3 (Log.warnStream 1) "L" =
      some [(7, "L"), (7, "L")] ∧
    LogStream.write (World.empty.sharedWith 0 0 1 2 7) 3 (Log.warnStream 2) "L" =
      some [(7, "L")] ∧
    LogStream.write (World.empty.sharedCout 0 0 1 2) 3 (Log.warnStream 1) "L" =
      some [(0, "L"), (0, "L")] :=
  ⟨by decide,
   (Log.attachLog_shared_sink 1 2 (by decide) World.empty 0 0 7 Channel.warn "L" 0).2.2.2.1,
   by decide, by decide, by decide⟩

end ql
